import Mathlib

/-!
Shallow embedding of the HTI-Scheduler core (Grid Block Extractor and
Personalized Schedule Assembler) from
`server/services/ExcelParserServiceFinal.js` and
`server/services/ScheduleGeneratorService.js`, together with theorems
settling the specification claims about them.

Modelling conventions:
* JS strings are Lean `String`s; a JS object field that may be absent
  (`undefined`) is an `Option`; `undefined === s` is `false` for every
  string `s`.
* The JS regexes are hand-compiled to executable matchers on `List Char`.
  `\s` is modelled by the ASCII whitespace subset actually occurring in the
  grids (space, tab, CR, LF).
* Thrown JS exceptions are `Except.error`; a `try/catch` is a `match` on
  the `Except`.
-/

namespace HTI

/-- JS `String.prototype.includes`: helper on char lists — does `cs` start
with `pat`? -/
def startsWithPat : List Char → List Char → Bool
  | [], _ => true
  | _ :: _, [] => false
  | p :: ps, c :: cs => p == c && startsWithPat ps cs

/-- JS `String.prototype.includes` on char lists: does `pat` occur as a
contiguous substring of `cs`? -/
def hasSubstr (pat : List Char) : List Char → Bool
  | [] => startsWithPat pat []
  | c :: cs => startsWithPat pat (c :: cs) || hasSubstr pat cs

/-- JS `s.includes(pat)`. -/
def jsIncludes (s pat : String) : Bool := hasSubstr pat.toList s.toList

/-- Character class `[A-Z]`. -/
def isUpperAZ (c : Char) : Bool := 'A' ≤ c && c ≤ 'Z'

/-- Character class `\d`. -/
def isDigit09 (c : Char) : Bool := '0' ≤ c && c ≤ '9'

/-- Character class `\s` (ASCII subset, see module header). -/
def isJsSpace (c : Char) : Bool := c == ' ' || c == '\t' || c == '\n' || c == '\r'

/-- JS `String.prototype.trim()`: strip whitespace from both ends. -/
def jsTrim (s : String) : String :=
  String.mk (((s.toList.dropWhile isJsSpace).reverse.dropWhile isJsSpace).reverse)

/-- JS `String.prototype.padStart(n, c)`. -/
def jsPadStart (s : String) (n : Nat) (c : Char) : String :=
  if n ≤ s.length then s else String.mk (List.replicate (n - s.length) c) ++ s

/-- JS `String.prototype.slice(-2)`: the last two characters (the whole
string when it is shorter). -/
def jsSliceLast2 (s : String) : String :=
  if s.length ≤ 2 then s else String.mk (s.toList.drop (s.length - 2))

/-- JS `replace(/\s+/g, ' ')` on a char list; the flag records whether the
previous character was whitespace (so a run collapses to one space). -/
def collapseWsGo : Bool → List Char → List Char
  | _, [] => []
  | prevWs, c :: cs =>
    if isJsSpace c then
      if prevWs then collapseWsGo true cs else ' ' :: collapseWsGo true cs
    else c :: collapseWsGo false cs

/-- JS `s.replace(/\s+/g, ' ')`. -/
def collapseWs (s : String) : String := String.mk (collapseWsGo false s.toList)

/-- JS `s.split(' - ')` on char lists: structural recursion, cutting at the
leftmost occurrence of the three-character separator each time. -/
def splitDashL : List Char → List (List Char)
  | ' ' :: '-' :: ' ' :: rest => [] :: splitDashL rest
  | c :: rest =>
    match splitDashL rest with
    | [] => [[c]]
    | g :: gs => (c :: g) :: gs
  | [] => [[]]

/-- JS `s.split(' - ')`. -/
def jsSplitDash (s : String) : List String := (splitDashL s.toList).map String.mk

/-- The regex `courseCodePattern = /^([A-Z]{2,4})\s*(\d{3})$/` from
`ExcelParserServiceFinal.js`; returns the captures `(dept, courseNum)`.
Because `[A-Z]`, `\s` and `\d` are disjoint classes, the greedy quantifier
with backtracking is equivalent to taking the maximal letter run and
requiring its length to be 2–4. -/
def ccMatch (s : String) : Option (String × String) :=
  let cs := s.toList
  let letters := cs.takeWhile isUpperAZ
  let rest := (cs.dropWhile isUpperAZ).dropWhile isJsSpace
  if 2 ≤ letters.length && letters.length ≤ 4 &&
      rest.length == 3 && rest.all isDigit09 then
    some (String.mk letters, String.mk rest)
  else none

/-- The regex `sharedGroupPattern = /^([A-Z]{2,4})\s*(\d{3})(\d{2}),(\d{2})$/`;
returns `(dept, courseNum, group1, group2)`. -/
def sharedMatch (s : String) : Option (String × String × String × String) :=
  let cs := s.toList
  let letters := cs.takeWhile isUpperAZ
  let rest := (cs.dropWhile isUpperAZ).dropWhile isJsSpace
  if 2 ≤ letters.length && letters.length ≤ 4 then
    match rest with
    | [a, b, c, d, e, f, g, h] =>
      if [a, b, c, d, e].all isDigit09 && f == ',' && [g, h].all isDigit09 then
        some (String.mk letters, String.mk [a, b, c], String.mk [d, e], String.mk [g, h])
      else none
    | _ => none
  else none

/-- The regex `singleCourseWithRoomPattern =
/^([A-Z]{2,4})\s*(\d{3})(\d{2})\s+(C\d{3,4})$/`; returns
`(dept, courseNum, group, room)`. -/
def singleRoomMatch (s : String) : Option (String × String × String × String) :=
  let cs := s.toList
  let letters := cs.takeWhile isUpperAZ
  let rest := (cs.dropWhile isUpperAZ).dropWhile isJsSpace
  let digits := rest.takeWhile isDigit09
  let afterDigits := rest.dropWhile isDigit09
  let spaces := afterDigits.takeWhile isJsSpace
  let afterSpaces := afterDigits.dropWhile isJsSpace
  if 2 ≤ letters.length && letters.length ≤ 4 && digits.length == 5 &&
      1 ≤ spaces.length then
    match afterSpaces with
    | 'C' :: ds =>
      if (ds.length == 3 || ds.length == 4) && ds.all isDigit09 then
        some (String.mk letters, String.mk (digits.take 3),
              String.mk (digits.drop 3), String.mk ('C' :: ds))
      else none
    | _ => none
  else none

/-- The regex `/^([A-Z]{2,4})\s*(\d{3})(\d{2})?$/` used by
`parseUserCourseSelection` in `ScheduleGeneratorService.js`; returns
`(dept, courseNum, group?)`. -/
def userSelMatch (s : String) : Option (String × String × Option String) :=
  let cs := s.toList
  let letters := cs.takeWhile isUpperAZ
  let rest := (cs.dropWhile isUpperAZ).dropWhile isJsSpace
  if 2 ≤ letters.length && letters.length ≤ 4 && rest.all isDigit09 then
    if rest.length == 3 then some (String.mk letters, String.mk rest, none)
    else if rest.length == 5 then
      some (String.mk letters, String.mk (rest.take 3), some (String.mk (rest.drop 3)))
    else none
  else none

/-- The unanchored test `roomPattern.test(s)` with
`roomPattern = /C\d{3,4}/`: somewhere a `'C'` is followed by at least
three digits. -/
def roomTestL : List Char → Bool
  | [] => false
  | c :: cs =>
    (c == 'C' && 3 ≤ cs.length && (cs.take 3).all isDigit09) || roomTestL cs

/-- JS `roomPattern.test(s)`. -/
def roomTest (s : String) : Bool := roomTestL s.toList

/-- JS `s.match(roomPattern)?.[0]`: leftmost match of `/C\d{3,4}/`, greedy
in the digit count. -/
def roomFindL : List Char → Option String
  | [] => none
  | c :: cs =>
    if c == 'C' && 3 ≤ cs.length && (cs.take 3).all isDigit09 then
      some (String.mk ('C' :: (cs.takeWhile isDigit09).take 4))
    else roomFindL cs

/-- JS `s.match(roomPattern)`, first capture. -/
def roomFind (s : String) : Option String := roomFindL s.toList

/-- The unanchored fallback regex `/([A-Z]{2,4})\s*(\d{3,5})/`: leftmost
start position; at a given start the letter run must be 2–4 long (a longer
run makes every backtracking choice end on a letter), then all whitespace,
then a greedy 3–5 digit take. Returns `(letters, spaces, digitsTaken)`. -/
def fallbackFindL : List Char → Option (List Char × List Char × List Char)
  | [] => none
  | c :: cs =>
    let all := c :: cs
    let letters := all.takeWhile isUpperAZ
    let rest := all.dropWhile isUpperAZ
    let spaces := rest.takeWhile isJsSpace
    let rest2 := rest.dropWhile isJsSpace
    let digits := rest2.takeWhile isDigit09
    if 2 ≤ letters.length && letters.length ≤ 4 && 3 ≤ digits.length then
      some (letters, spaces, digits.take 5)
    else fallbackFindL cs

/-! ### Grid Block Extractor (`ExcelParserServiceFinal.js`) -/

/-- One emitted schedule entry (`createScheduleEntries`). -/
structure ScheduleEntry where
  course_code : String
  group_code : String
  course_name : String
  instructor : String
  location : String
  day_of_week : String
  start_time : String
  end_time : String
  session_type : String
  time_slot : Nat
  span : Nat
  shared_groups : List String
deriving DecidableEq, Repr

/-- Result of `parseCourseCell`. -/
structure CourseCellInfo where
  courseCode : String
  groups : List String
deriving DecidableEq, Repr

/-- Result of `detectCourseBlock`. -/
structure DetectedBlock where
  courseCode : String
  groups : List String
  courseName : String
  room : String
  instructor : String
  span : Nat
  startRow : Nat
  startCol : Nat
deriving DecidableEq, Repr

/-- `this.timeSlots`: the eight fixed slots, as `(column, time)` pairs. -/
def timeSlots : List (Nat × String) :=
  [(1, "9.00 - 9.45"), (2, "9.45 - 10.30"), (3, "10.40 - 11.25"),
   (4, "11.25 - 12.10"), (5, "12.20 - 1.05"), (6, "1.05 - 1.50"),
   (7, "2.00 - 2.45"), (8, "2.45 - 3.30")]

/-- `this.arabicDays`: Arabic day label → English day name. -/
def arabicDays : List (String × String) :=
  [("السبت", "Saturday"), ("الأحد", "Sunday"), ("الاثنين", "Monday"),
   ("الثلاثاء", "Tuesday"), ("الأربعاء", "Wednesday"), ("الخميس", "Thursday"),
   ("الجمعة", "Friday")]

/-- The raw grid: rows of cell strings (`sheet_to_json(…, {header:1, defval:''})`). -/
abbrev RawGrid := List (List String)

/-- `String(rawData[r][c] || '').trim()` — a missing row or cell reads as `''`. -/
def cellAt (rawData : RawGrid) (r c : Nat) : String :=
  jsTrim ((rawData.getD r []).getD c "")

/-- `findDayName`: first Arabic day whose label occurs in the cell. -/
def findDayName (cellValue : String) : Option String :=
  (arabicDays.find? fun p => jsIncludes cellValue p.1).map (·.2)

/-- `parseCourseCell`: the ordered pattern cascade (shared / single-with-room
/ basic / fallback). -/
def parseCourseCell (cellValue : String) : Option CourseCellInfo :=
  match sharedMatch cellValue with
  | some (dept, courseNum, group1, group2) =>
    some ⟨dept ++ " " ++ courseNum, [group1, group2]⟩
  | none =>
  match singleRoomMatch cellValue with
  | some (dept, courseNum, group, _room) =>
    some ⟨dept ++ " " ++ courseNum, [group]⟩
  | none =>
  match ccMatch cellValue with
  | some (dept, courseNum) =>
    some ⟨dept ++ " " ++ courseNum, [jsSliceLast2 courseNum]⟩
  | none =>
  match fallbackFindL cellValue.toList with
  | some (letters, spaces, numericPart) =>
    some ⟨collapseWs (String.mk (letters ++ spaces ++ numericPart)),
          [jsSliceLast2 (String.mk numericPart)]⟩
  | none => none

/-- `isInstructorInfo`: honorific markers, or long text that is neither a
room nor a course code. -/
def isInstructorInfo (text : String) : Bool :=
  jsIncludes text "م." || jsIncludes text "د." || jsIncludes text "أ." ||
    (5 < text.length && !roomTest text && !(ccMatch text).isSome)

/-- The decision made by `calculateHorizontalSpan` for one lookahead cell:
`true` exactly when the loop `break`s before that column (the cell is
non-empty, not a room, not instructor-like, and matches the basic or the
shared course pattern). -/
def stopsSpanCell (cellValue : String) : Bool :=
  !(cellValue == "" || roomTest cellValue || isInstructorInfo cellValue) &&
    ((ccMatch cellValue).isSome || (sharedMatch cellValue).isSome)

/-- `calculateHorizontalSpan`: look ahead up to three columns; empty, room
or instructor-like cells extend the span, a basic/shared course-code cell
stops it, anything else also extends it. -/
def calculateHorizontalSpan (rawData : RawGrid) (startRow startCol : Nat) : Nat :=
  go 3 1 1
where
  go : Nat → Nat → Nat → Nat
    | 0, _, span => span
    | rem + 1, colOffset, span =>
      let checkCol := startCol + colOffset
      if (rawData.getD startRow []).length ≤ checkCol then span
      else
        let cellValue := cellAt rawData startRow checkCol
        if cellValue == "" || roomTest cellValue || isInstructorInfo cellValue then
          go rem (colOffset + 1) (span + 1)
        else if (ccMatch cellValue).isSome || (sharedMatch cellValue).isSome then
          span
        else go rem (colOffset + 1) (span + 1)

/-- The prefix test `/^[A-Z]{2,4}\s*\d/` used by `extractCourseName`. -/
def ccPrefixTest (s : String) : Bool :=
  let cs := s.toList
  let letters := cs.takeWhile isUpperAZ
  let rest := (cs.dropWhile isUpperAZ).dropWhile isJsSpace
  2 ≤ letters.length && letters.length ≤ 4 &&
    (match rest with | d :: _ => isDigit09 d | [] => false)

/-- `extractCourseName`: first cell of row `row` across the span that is
non-empty and matches none of the course/room patterns. -/
def extractCourseName (rawData : RawGrid) (row startCol span : Nat) : String :=
  if rawData.length ≤ row then "" else go (List.range span)
where
  go : List Nat → String
    | [] => ""
    | colOffset :: rest =>
      let col := startCol + colOffset
      if (rawData.getD row []).length ≤ col then go rest
      else
        let cellValue := cellAt rawData row col
        if cellValue != "" && !(ccMatch cellValue).isSome && !roomTest cellValue &&
            !ccPrefixTest cellValue then cellValue
        else go rest

/-- The test `/C(3|4|5)\d{2}/` used by `determineSessionType`. -/
def c345Test (s : String) : Bool := go s.toList
where
  go : List Char → Bool
    | [] => false
    | c :: cs =>
      (c == 'C' &&
        (match cs with
         | x :: y :: z :: _ =>
           (x == '3' || x == '4' || x == '5') && isDigit09 y && isDigit09 z
         | _ => false)) || go cs

/-- `determineSessionType`: both branches agree — more than one group means
`lecture`, otherwise `lab` (the room test is kept for fidelity). -/
def determineSessionType (_courseName room : String) (groups : List String) : String :=
  if room != "" && c345Test room then
    if 1 < groups.length then "lecture" else "lab"
  else if 1 < groups.length then "lecture" else "lab"

/-- `extractRoomAndInstructor`: room from the original row-1 cell first,
then room/instructor from row 3 across the span. -/
def extractRoomAndInstructor (rawData : RawGrid) (row startCol span : Nat)
    (originalCell : String) : String × String :=
  let room0 := match roomFind originalCell with | some r => r | none => ""
  if rawData.length ≤ row then (room0, "")
  else
    (List.range span).foldl
      (fun (ri : String × String) colOffset =>
        let room := ri.1
        let instructor := ri.2
        let col := startCol + colOffset
        if (rawData.getD row []).length ≤ col then (room, instructor)
        else
          let cellValue := cellAt rawData row col
          if cellValue == "" then (room, instructor)
          else
            let room' :=
              if room == "" then
                match roomFind cellValue with | some r => r | none => room
              else room
            let instructor' :=
              if instructor == "" && !roomTest cellValue && !(ccMatch cellValue).isSome
              then cellValue else instructor
            (room', instructor'))
      (room0, "")

/-- `detectCourseBlock`: parse the start cell, compute the span, and pull
name/room/instructor from the two rows below. -/
def detectCourseBlock (rawData : RawGrid) (startRow startCol : Nat) :
    Option DetectedBlock :=
  let cellValue := cellAt rawData startRow startCol
  if cellValue == "" then none
  else
    match parseCourseCell cellValue with
    | none => none
    | some courseInfo =>
      let span := calculateHorizontalSpan rawData startRow startCol
      let courseName := extractCourseName rawData (startRow + 1) startCol span
      let ri := extractRoomAndInstructor rawData (startRow + 2) startCol span cellValue
      some { courseCode := courseInfo.courseCode, groups := courseInfo.groups,
             courseName := courseName, room := ri.1, instructor := ri.2,
             span := span, startRow := startRow, startCol := startCol }

/-- `markBlockAsProcessed`: the cells of the 3-row × span-column rectangle. -/
def blockCells (startRow startCol span : Nat) : List (Nat × Nat) :=
  (List.range 3).flatMap fun rowOffset =>
    (List.range span).map fun colOffset => (startRow + rowOffset, startCol + colOffset)

/-- `createScheduleEntries`: one entry per captured group. -/
def createScheduleEntries (courseBlock : DetectedBlock) (day : String)
    (timeSlot : Nat × String) : List ScheduleEntry :=
  courseBlock.groups.map fun group =>
    { course_code := courseBlock.courseCode
      group_code := jsPadStart group 2 '0'
      course_name := courseBlock.courseName
      instructor := courseBlock.instructor
      location := courseBlock.room
      day_of_week := day
      start_time := (jsSplitDash timeSlot.2).getD 0 ""
      end_time := (jsSplitDash timeSlot.2).getD 1 ""
      session_type := determineSessionType courseBlock.courseName courseBlock.room
        courseBlock.groups
      time_slot := timeSlot.1
      span := courseBlock.span
      shared_groups := if 1 < courseBlock.groups.length then courseBlock.groups else [] }

/-- Mutable scan state of `detectAllCourseBlocks`: the current day, the
processed-cell set, and the accumulated entries. The `blocks` field records
each detected block (the data the code logs per detection); it is
instrumentation for the theorems and feeds nothing back into the scan. -/
structure ScanState where
  currentDay : Option String
  processed : List (Nat × Nat)
  entries : List ScheduleEntry
  blocks : List DetectedBlock

/-- The inner per-column step of `detectAllCourseBlocks`. -/
def scanCol (rawData : RawGrid) (rowIndex : Nat) (day : String) (st : ScanState)
    (colIndex : Nat) : ScanState :=
  match timeSlots.get? (colIndex - 2) with
  | none => st
  | some timeSlot =>
    if (rowIndex, colIndex) ∈ st.processed then st
    else
      match detectCourseBlock rawData rowIndex colIndex with
      | none => st
      | some courseBlock =>
        { st with
          processed := st.processed ++ blockCells rowIndex colIndex courseBlock.span
          entries := st.entries ++ createScheduleEntries courseBlock day timeSlot
          blocks := st.blocks ++ [courseBlock] }

/-- The per-row step of `detectAllCourseBlocks`: update the current day on a
day label, otherwise scan columns C–J (indices 2–9) when a day is active. -/
def scanRow (rawData : RawGrid) (st : ScanState) (rowIndex : Nat) : ScanState :=
  let dayCell := cellAt rawData rowIndex 0
  match findDayName dayCell with
  | some foundDay => { st with currentDay := some foundDay }
  | none =>
    match st.currentDay with
    | none => st
    | some day => ([2, 3, 4, 5, 6, 7, 8, 9] : List Nat).foldl (scanCol rawData rowIndex day) st

/-- The whole scan of `detectAllCourseBlocks`, with fresh state. -/
def scanGrid (rawData : RawGrid) : ScanState :=
  (List.range rawData.length).foldl (scanRow rawData) ⟨none, [], [], []⟩

/-- `detectAllCourseBlocks`: the emitted schedule entries. -/
def detectAllCourseBlocks (rawData : RawGrid) : List ScheduleEntry :=
  (scanGrid rawData).entries

/-- A session as stored by `groupSessionsByCourseGroup`. The JS session
object has no `course_code` key, so reading it yields `undefined`; the
optional field (defaulted to `none` here) models exactly that. -/
structure Session where
  day_of_week : String
  start_time : String
  end_time : String
  location : String
  instructor : String
  session_type : String
  span : Nat
  course_code : Option String := none
deriving DecidableEq, Repr

/-- A `(course_code, group_code)` aggregate (`groupSessionsByCourseGroup`). -/
structure CourseGroup where
  course_code : String
  group_code : String
  course_name : String
  sessions : List Session
deriving DecidableEq, Repr

/-- The session record pushed by `groupSessionsByCourseGroup` (note: no
`course_code` field is written). -/
def entryToSession (entry : ScheduleEntry) : Session :=
  { day_of_week := entry.day_of_week, start_time := entry.start_time,
    end_time := entry.end_time, location := entry.location,
    instructor := entry.instructor, session_type := entry.session_type,
    span := entry.span }

/-- `groupSessionsByCourseGroup`: a `Map` keyed by course+group, in first
insertion order, each value collecting the sessions in entry order. -/
def groupSessionsByCourseGroup (scheduleEntries : List ScheduleEntry) :
    List CourseGroup :=
  scheduleEntries.foldl
    (fun acc entry =>
      if acc.any fun g =>
          g.course_code == entry.course_code && g.group_code == entry.group_code then
        acc.map fun g =>
          if g.course_code == entry.course_code && g.group_code == entry.group_code
          then { g with sessions := g.sessions ++ [entryToSession entry] }
          else g
      else
        acc ++ [{ course_code := entry.course_code, group_code := entry.group_code,
                  course_name := entry.course_name,
                  sessions := [entryToSession entry] }])
    []

/-! ### Personalized Schedule Assembler (`ScheduleGeneratorService.js`) -/

/-- One element of `userRequest.desired_courses`, as a JS value: a string,
an object with optional `code`/`group` fields, `null`, a number, or a
boolean. `typeof null === 'object'`, so reading `.code` from `null` throws. -/
inductive DesiredCourse where
  | str (s : String)
  | obj (code : Option String) (group : Option String)
  | nullVal
  | numVal (n : Int)
  | boolVal (b : Bool)
deriving DecidableEq, Repr

/-- A resolved selection entry (`parseUserCourseSelection` output). -/
structure UserSelection where
  course_code : String
  group_number : String
  original_input : DesiredCourse
deriving DecidableEq, Repr

instance {ε α : Type} [DecidableEq ε] [DecidableEq α] : DecidableEq (Except ε α) :=
  fun x y =>
    match x, y with
    | .ok a, .ok b =>
      if h : a = b then isTrue (by rw [h]) else isFalse fun hc => h (Except.ok.inj hc)
    | .error a, .error b =>
      if h : a = b then isTrue (by rw [h])
      else isFalse fun hc => h (Except.error.inj hc)
    | .ok _, .error _ => isFalse fun hc => Except.noConfusion hc
    | .error _, .ok _ => isFalse fun hc => Except.noConfusion hc

/-- `this.days` of the generator (note: a different order than the parser's). -/
def days : List String :=
  ["Sunday", "Monday", "Tuesday", "Wednesday", "Thursday", "Friday", "Saturday"]

/-- `this.timeSlotMap`: display strings of the eight slots. -/
def timeSlotMap : List String :=
  ["9.00 - 9.45", "9.45 - 10.30", "10.40 - 11.25", "11.25 - 12.10",
   "12.20 - 1.05", "1.05 - 1.50", "2.00 - 2.45", "2.45 - 3.30"]

/-- `this.trueSpanValues`: canonical expected span totals. -/
def trueSpanValues : List (String × Nat) :=
  [("EEC 101", 3), ("EEC 113", 3), ("EEC 121", 5), ("EEC 125", 5),
   ("EEC 142", 6), ("EEC 212", 5), ("EEC 284", 4)]

/-- `this.trueSpanValues[courseCode]` (`undefined` is `none`). -/
def lookupTrueSpan (courseCode : String) : Option Nat :=
  (trueSpanValues.find? fun p => p.1 == courseCode).map (·.2)

/-- Lexicographic `≤` on char lists (the JS default string comparison). -/
def listLeB : List Char → List Char → Bool
  | [], _ => true
  | _ :: _, [] => false
  | a :: as, b :: bs => if a < b then true else if b < a then false else listLeB as bs

/-- JS default string comparison `a <= b` (lexicographic). -/
def strLeB (a b : String) : Bool := listLeB a.toList b.toList

/-- The ordering relation of the JS default sort, as a `Prop`. -/
def strLeProp (a b : String) : Prop := strLeB a b = true

instance : DecidableRel strLeProp := fun a b => Bool.decEq (strLeB a b) true

theorem listLeB_total (as : List Char) : ∀ bs, listLeB as bs = true ∨ listLeB bs as = true := by
  induction as with
  | nil => intro bs; left; rfl
  | cons a as ih =>
    intro bs
    cases bs with
    | nil => right; rfl
    | cons b bs =>
      rcases lt_trichotomy a b with hab | hab | hab
      · left; simp [listLeB, hab]
      · subst hab
        rcases ih bs with h | h
        · left; simp [listLeB, lt_irrefl, h]
        · right; simp [listLeB, lt_irrefl, h]
      · right; simp [listLeB, hab]

theorem listLeB_trans (as : List Char) :
    ∀ bs cs, listLeB as bs = true → listLeB bs cs = true → listLeB as cs = true := by
  induction as with
  | nil => intro bs cs _ _; rfl
  | cons a as ih =>
    intro bs cs h1 h2
    cases bs with
    | nil => simp [listLeB] at h1
    | cons b bs =>
      cases cs with
      | nil => simp [listLeB] at h2
      | cons c cs =>
        simp only [listLeB] at h1 h2 ⊢
        by_cases hab : a < b
        · by_cases hbc : b < c
          · simp [lt_trans hab hbc]
          · by_cases hcb : c < b
            · simp [hbc, hcb] at h2
            · have hbceq : b = c := le_antisymm (not_lt.mp hcb) (not_lt.mp hbc)
              subst hbceq
              simp [hab]
        · by_cases hba : b < a
          · simp [hab, hba] at h1
          · have habeq : a = b := le_antisymm (not_lt.mp hba) (not_lt.mp hab)
            subst habeq
            by_cases hbc : a < c
            · simp [hbc]
            · by_cases hcb : c < a
              · simp [hbc, hcb] at h2
              · simp [hab, hba] at h1
                simp [hbc, hcb] at h2
                simp [hbc, hcb, ih _ _ h1 h2]

instance : IsTotal String strLeProp :=
  ⟨fun a b => listLeB_total a.toList b.toList⟩

instance : IsTrans String strLeProp :=
  ⟨fun a b c h1 h2 => listLeB_trans a.toList b.toList c.toList h1 h2⟩

/-- JS default `Array.prototype.sort()` on strings: lexicographic ascending. -/
def jsSortStr (l : List String) : List String :=
  l.insertionSort strLeProp

/-- The unsorted group-code collection inside `selectSmartGroup`: all group
codes of the course present in the catalog, falsy (empty) ones removed. The
course code is `Option` because the object input form can leave it
`undefined` (which `===`-equals no string). -/
def availableGroupsRaw (courseCode : Option String)
    (courseGroups : List CourseGroup) : List String :=
  ((courseGroups.filter fun g =>
      match courseCode with
      | some c => g.course_code == c
      | none => false).map (·.group_code)).filter fun g => g != ""

/-- The `availableGroups` value of `selectSmartGroup`: the collection above,
sorted. -/
def availableGroups (courseCode : Option String) (courseGroups : List CourseGroup) :
    List String :=
  jsSortStr (availableGroupsRaw courseCode courseGroups)

/-- `selectSmartGroup`: prefer `"01"`, else the first available group, else
fall back to `"01"`. -/
def selectSmartGroup (courseCode : Option String) (courseGroups : List CourseGroup) :
    String :=
  let avail := availableGroups courseCode courseGroups
  if avail.isEmpty then "01"
  else if avail.contains "01" then "01"
  else avail.headD "01"

/-- The resolved `(courseCode, groupNumber)` pair for a string input item of
`parseUserCourseSelection`. -/
def resolveStrInput (courseGroups : List CourseGroup) (s : String) : String × String :=
  match userSelMatch s with
  | some (dept, courseNum, some group) => (dept ++ " " ++ courseNum, group)
  | some (dept, courseNum, none) =>
    (dept ++ " " ++ courseNum,
     selectSmartGroup (some (dept ++ " " ++ courseNum)) courseGroups)
  | none => (jsTrim s, selectSmartGroup (some (jsTrim s)) courseGroups)

/-- The loop of `parseUserCourseSelection` over the input items, with the
accumulated selections; a `null` item throws `TypeError` (caught by the
caller's `try`), and items failing the `courseCode && groupNumber`
truthiness check are skipped. -/
def parseGo (courseGroups : List CourseGroup) :
    List DesiredCourse → List UserSelection → Except String (List UserSelection)
  | [], acc => .ok acc
  | .nullVal :: _, _ =>
    .error "Cannot read properties of null (reading 'code')"
  | .numVal _ :: rest, acc => parseGo courseGroups rest acc
  | .boolVal _ :: rest, acc => parseGo courseGroups rest acc
  | .str s :: rest, acc =>
    let resolved := resolveStrInput courseGroups s
    if resolved.1 != "" && resolved.2 != "" then
      parseGo courseGroups rest
        (acc ++ [{ course_code := resolved.1,
                   group_number := jsPadStart resolved.2 2 '0',
                   original_input := .str s }])
    else parseGo courseGroups rest acc
  | .obj code group :: rest, acc =>
    let groupNumber :=
      match group with
      | some g => if g == "" then selectSmartGroup code courseGroups else g
      | none => selectSmartGroup code courseGroups
    match code with
    | some c =>
      if c != "" && groupNumber != "" then
        parseGo courseGroups rest
          (acc ++ [{ course_code := c,
                     group_number := jsPadStart groupNumber 2 '0',
                     original_input := .obj code group }])
      else parseGo courseGroups rest acc
    | none => parseGo courseGroups rest acc

/-- `parseUserCourseSelection`: resolve each input item into a selection. -/
def parseUserCourseSelection (desired : List DesiredCourse)
    (courseGroups : List CourseGroup) : Except String (List UserSelection) :=
  parseGo courseGroups desired []

/-- `findSharedGroups`: group codes of all groups of the same course that
contain a session with the same day/start/end/session_type. The catalog
sessions carry no `course_code` (see `Session`), so the `===` against the
session's `course_code` is false whenever it is absent. -/
def findSharedGroups (session : Session) (courseGroups : List CourseGroup) :
    List String :=
  let matchingSessions := courseGroups.foldl
    (fun acc group =>
      if (match session.course_code with
          | some sc => group.course_code == sc
          | none => false) then
        acc ++ (group.sessions.filter fun gs =>
          gs.day_of_week == session.day_of_week &&
          gs.start_time == session.start_time &&
          gs.end_time == session.end_time &&
          gs.session_type == session.session_type).map (fun _ => group.group_code)
      else acc)
    []
  if 1 < matchingSessions.length then jsSortStr matchingSessions else []

/-- `calculateGroupSpans`: both branches of the shared check add the span. -/
def calculateGroupSpans (selectedGroup : CourseGroup)
    (courseGroups : List CourseGroup) : Nat :=
  selectedGroup.sessions.foldl
    (fun totalSpans session =>
      let sharedGroups := findSharedGroups session courseGroups
      if sharedGroups.contains selectedGroup.group_code then totalSpans + session.span
      else totalSpans + session.span)
    0

/-- One row of `validation.course_span_summary`. -/
structure SpanSummary where
  course_code : String
  group_number : String
  actual_spans : Nat
  expected_spans : Option Nat
  is_valid : Bool
deriving DecidableEq, Repr

/-- The `validation` record of `validateCourseSpans`. -/
structure SpanValidation where
  isValid : Bool
  errors : List String
  warnings : List String
  course_span_summary : List SpanSummary
deriving DecidableEq, Repr

/-- The loop body of `validateCourseSpans` for one selection. The
`exp != 0` guards mirror JS falsiness of `0` in `expectedSpans &&` and
`!expectedSpans` (no entry of `trueSpanValues` is `0`). -/
def validateSpanStep (courseGroups : List CourseGroup) (validation : SpanValidation)
    (selection : UserSelection) : SpanValidation :=
  let courseGroupsForCode :=
    courseGroups.filter fun g => g.course_code == selection.course_code
  if courseGroupsForCode.isEmpty then
    { validation with
      isValid := false
      errors := validation.errors ++
        ["Course " ++ selection.course_code ++ " not found in Excel data"] }
  else
    match courseGroupsForCode.find? fun g => g.group_code == selection.group_number with
    | none =>
      { validation with
        isValid := false
        errors := validation.errors ++
          ["Group " ++ selection.group_number ++ " not found for course " ++
           selection.course_code] }
    | some selectedGroup =>
      let totalSpans := calculateGroupSpans selectedGroup courseGroups
      let expectedSpans := lookupTrueSpan selection.course_code
      let warnings :=
        match expectedSpans with
        | some exp =>
          if exp ≠ 0 && totalSpans ≠ exp then
            validation.warnings ++
              ["Course " ++ selection.course_code ++ " group " ++
               selection.group_number ++ ": expected " ++ toString exp ++
               " spans, found " ++ toString totalSpans ++ " spans"]
          else validation.warnings
        | none => validation.warnings
      { validation with
        warnings := warnings
        course_span_summary := validation.course_span_summary ++
          [{ course_code := selection.course_code
             group_number := selection.group_number
             actual_spans := totalSpans
             expected_spans := expectedSpans
             is_valid :=
               match expectedSpans with
               | none => true
               | some exp => exp == 0 || totalSpans == exp }] }

/-- `validateCourseSpans`: fold the step over the selections, accumulating
errors and warnings without aborting. -/
def validateCourseSpans (courseSelection : List UserSelection)
    (courseGroups : List CourseGroup) : SpanValidation :=
  courseSelection.foldl (validateSpanStep courseGroups)
    { isValid := true, errors := [], warnings := [], course_span_summary := [] }

/-- `findTimeSlotIndex`: fixed start-time → slot-index map (`-1` is `none`). -/
def findTimeSlotIndex (startTime : String) : Option Nat :=
  (([("9.00", 0), ("9.45", 1), ("10.40", 2), ("11.25", 3), ("12.20", 4),
     ("1.05", 5), ("2.00", 6), ("2.45", 7)] : List (String × Nat)).find?
    fun p => p.1 == startTime).map (·.2)

/-- `Array.prototype.indexOf` returning `none` for `-1`. -/
def jsIndexOf : List String → String → Option Nat
  | [], _ => none
  | x :: xs, s => if x == s then some 0 else (jsIndexOf xs s).map (· + 1)

/-- Row 1 of a course block (`row1_course_info`). -/
structure Row1Info where
  course_code : String
  group_numbers : List String
  display_text : String
deriving DecidableEq, Repr

/-- Row 2 of a course block (`row2_course_name`). -/
structure Row2Info where
  arabic_name : String
  display_text : String
deriving DecidableEq, Repr

/-- Row 3 of a course block (`row3_details`). -/
structure Row3Info where
  hall_number : String
  professor_name : String
  display_text : String
deriving DecidableEq, Repr

/-- `session_metadata` of a course block. -/
structure SessionMeta where
  session_type : String
  start_time : String
  end_time : String
  day_of_week : String
  original_span : Nat
deriving DecidableEq, Repr

/-- The 3-row course block built by `createCourseBlock`. -/
structure CourseBlockCell where
  row1_course_info : Row1Info
  row2_course_name : Row2Info
  row3_details : Row3Info
  session_metadata : SessionMeta
deriving DecidableEq, Repr

/-- A placed table cell: the spread `{...courseBlock, is_continuation,
span_position, total_span}`. -/
structure PlacedCell extends CourseBlockCell where
  is_continuation : Bool
  span_position : Nat
  total_span : Nat
deriving DecidableEq, Repr

/-- `createCourseBlock`: the displayable 3-row block, with shared-group
detection over the full catalog. -/
def createCourseBlock (session : Session) (selectedGroup : CourseGroup)
    (courseGroups : List CourseGroup) : CourseBlockCell :=
  let sharedGroups := findSharedGroups session courseGroups
  { row1_course_info :=
      { course_code := selectedGroup.course_code
        group_numbers :=
          if 0 < sharedGroups.length then sharedGroups else [selectedGroup.group_code]
        display_text :=
          if 0 < sharedGroups.length then
            selectedGroup.course_code ++ " " ++ String.intercalate "," sharedGroups
          else selectedGroup.course_code ++ " " ++ selectedGroup.group_code }
    row2_course_name :=
      { arabic_name := selectedGroup.course_name
        display_text := selectedGroup.course_name }
    row3_details :=
      { hall_number := session.location
        professor_name := session.instructor
        display_text := String.intercalate " - "
          (([session.location, session.instructor].filter fun s => s != "")) }
    session_metadata :=
      { session_type := session.session_type, start_time := session.start_time,
        end_time := session.end_time, day_of_week := session.day_of_week,
        original_span := session.span } }

/-- The weekly table: the `structure` header flattened in, and the
`schedule` object as a map from day name to its slot array (days outside
`days` read as an empty array, as an absent JS key would). -/
structure WeeklyTable where
  header_days : List String
  header_time_slots : List String
  total_cells : Nat
  schedule : String → List (Option PlacedCell)

/-- The inner placement loop of `buildWeeklyScheduleTable` for one session:
fill every covered slot below index 8, marking continuations. -/
def writeSpan (lst : List (Option PlacedCell)) (timeSlotIndex spanTotal : Nat)
    (courseBlock : CourseBlockCell) : List (Option PlacedCell) :=
  (List.range spanTotal).foldl
    (fun acc spanPos =>
      if timeSlotIndex + spanPos < 8 then
        acc.set (timeSlotIndex + spanPos)
          (some { toCourseBlockCell := courseBlock,
                  is_continuation := decide (0 < spanPos),
                  span_position := spanPos + 1,
                  total_span := spanTotal })
      else acc)
    lst

/-- Pointwise update of the schedule map at one day. -/
def updateDay (sched : String → List (Option PlacedCell)) (day : String)
    (lst : List (Option PlacedCell)) : String → List (Option PlacedCell) :=
  fun d => if d == day then lst else sched d

/-- `buildWeeklyScheduleTable`: place every session of every resolved
selection at its exact (day, slot) position; unknown day or start time
silently skips the session. -/
def buildWeeklyScheduleTable (courseSelection : List UserSelection)
    (courseGroups : List CourseGroup) : WeeklyTable :=
  let initSchedule : String → List (Option PlacedCell) :=
    fun d => if days.contains d then List.replicate 8 none else []
  let schedule := courseSelection.foldl
    (fun sched selection =>
      match courseGroups.find? fun g =>
          g.course_code == selection.course_code &&
          g.group_code == selection.group_number with
      | none => sched
      | some selectedGroup =>
        selectedGroup.sessions.foldl
          (fun sched session =>
            match jsIndexOf days session.day_of_week,
                  findTimeSlotIndex session.start_time with
            | some dayIndex, some timeSlotIndex =>
              let courseBlock := createCourseBlock session selectedGroup courseGroups
              let dayName := days.getD dayIndex ""
              updateDay sched dayName
                (writeSpan (sched dayName) timeSlotIndex session.span courseBlock)
            | _, _ => sched)
          sched)
    initSchedule
  { header_days := days, header_time_slots := timeSlotMap,
    total_cells := days.length * 8, schedule := schedule }

/-- One recorded conflict. -/
structure Conflict where
  day : String
  time_slot : Nat
  course1 : String
  course2 : String
deriving DecidableEq, Repr

/-- The `conflict_validation` record. -/
structure ConflictValidation where
  has_conflicts : Bool
  conflicts : List Conflict
  total_conflicts : Nat
deriving DecidableEq, Repr

/-- The forward scan of `validateNoConflicts` from one non-continuation
cell: walk the declared span and record any other non-continuation block. -/
def conflictScanFrom (dayList : List (Option PlacedCell)) (day : String)
    (cell : PlacedCell) (slot : Nat) (acc : List Conflict) : List Conflict :=
  (List.range' slot cell.total_span).foldl
    (fun acc checkSlot =>
      if checkSlot ≠ slot then
        match dayList.getD checkSlot none with
        | some other =>
          if !other.is_continuation then
            acc ++ [{ day := day, time_slot := checkSlot,
                      course1 := cell.row1_course_info.display_text,
                      course2 := other.row1_course_info.display_text }]
          else acc
        | none => acc
      else acc)
    acc

/-- `validateNoConflicts`: containment-style conflict detection over all
days and slots. -/
def validateNoConflicts (weeklyTable : WeeklyTable) : ConflictValidation :=
  let conflicts := days.foldl
    (fun acc day =>
      (List.range 8).foldl
        (fun acc slot =>
          match (weeklyTable.schedule day).getD slot none with
          | some cell =>
            if !cell.is_continuation then
              conflictScanFrom (weeklyTable.schedule day) day cell slot acc
            else acc
          | none => acc)
        acc)
    []
  { has_conflicts := 0 < conflicts.length, conflicts := conflicts,
    total_conflicts := conflicts.length }

/-- `calculateTotalSpans`: sum `total_span` over all non-continuation cells. -/
def calculateTotalSpans (weeklyTable : WeeklyTable) : Nat :=
  days.foldl
    (fun acc day =>
      (List.range 8).foldl
        (fun acc slot =>
          match (weeklyTable.schedule day).getD slot none with
          | some cell =>
            if !cell.is_continuation then acc + cell.total_span else acc
          | none => acc)
        acc)
    0

/-- `generation_metadata` (the impure timestamp is not modelled). -/
structure GenerationMetadata where
  total_courses : Nat
  total_spans : Nat
deriving DecidableEq, Repr

/-- The `schedule` payload of a successful generation. -/
structure SchedulePayload where
  weekly_table : WeeklyTable
  course_selection : List UserSelection
  span_validation : SpanValidation
  conflict_validation : ConflictValidation
  generation_metadata : GenerationMetadata

/-- The result object of `generatePersonalizedSchedule`; fields the JS code
leaves off a given result are `none`. -/
structure GenerateResult where
  success : Bool
  error : Option String := none
  validation_errors : Option (List String) := none
  schedule : Option SchedulePayload := none

/-- The body of the `try` block of `generatePersonalizedSchedule`;
`Except.error` is a thrown exception reaching the `catch`. -/
def generateRaw (courseGroups : List CourseGroup) (desired : List DesiredCourse) :
    Except String GenerateResult :=
  match parseUserCourseSelection desired courseGroups with
  | .error e => .error e
  | .ok courseSelection =>
    let spanValidation := validateCourseSpans courseSelection courseGroups
    if !spanValidation.isValid then
      .ok { success := false, error := some "Course span validation failed",
            validation_errors := some spanValidation.errors }
    else
      let weeklySchedule := buildWeeklyScheduleTable courseSelection courseGroups
      let conflictValidation := validateNoConflicts weeklySchedule
      .ok { success := true,
            schedule := some
              { weekly_table := weeklySchedule, course_selection := courseSelection,
                span_validation := spanValidation,
                conflict_validation := conflictValidation,
                generation_metadata :=
                  { total_courses := courseSelection.length,
                    total_spans := calculateTotalSpans weeklySchedule } } }

/-- `generatePersonalizedSchedule` with its `try/catch`: a thrown error
becomes a `success:false` result carrying the error message. -/
def generatePersonalizedSchedule (courseGroups : List CourseGroup)
    (desired : List DesiredCourse) : GenerateResult :=
  match generateRaw courseGroups desired with
  | .ok r => r
  | .error e => { success := false, error := some e }

/-! ### Concrete inputs used by the claim theorems -/

/-- A catalog session, as `groupSessionsByCourseGroup` would produce it. -/
def mkCatSession (d t e ty : String) (sp : Nat) : Session :=
  { day_of_week := d, start_time := t, end_time := e, location := "",
    instructor := "", session_type := ty, span := sp }

/-- Catalog with two groups of `EEC 101` sharing an identical session
(day, start, end, session_type all equal). -/
def catalogC1 : List CourseGroup :=
  [{ course_code := "EEC 101", group_code := "05", course_name := "Circuits",
     sessions := [mkCatSession "Saturday" "9.00" "9.45" "lecture" 1] },
   { course_code := "EEC 101", group_code := "06", course_name := "Circuits",
     sessions := [mkCatSession "Saturday" "9.00" "9.45" "lecture" 1] }]

/-- Catalog with two distinct courses whose single sessions start at the
same (day, slot). -/
def catalogC2 : List CourseGroup :=
  [{ course_code := "EEC 101", group_code := "01", course_name := "Circuits",
     sessions := [mkCatSession "Saturday" "9.00" "9.45" "lecture" 1] },
   { course_code := "EEC 113", group_code := "01", course_name := "Computers",
     sessions := [mkCatSession "Saturday" "9.00" "9.45" "lecture" 1] }]

/-- A grid with two separate 3-row bands under the same day label, both
holding a block of the same course at the same column. -/
def gridC3 : RawGrid :=
  [["السبت"], ["", "", "EEC 113"], [], [], ["", "", "EEC 113"]]

/-- Scenario A grid: one shared-group block `EEC 10105,06` on columns C–E
under the Saturday label. -/
def gridC4 : RawGrid :=
  [["السبت"], ["", "", "EEC 10105,06", "", ""]]

/-- A grid where the column after a block start itself starts a
single-course-with-room block. -/
def gridC5 : RawGrid :=
  [["السبت"], ["", "", "EEC 101", "EEC 11302 C401"]]

/-- Do two schedule entries of the same course group overlap on the same
day (intervals `[time_slot, time_slot+span-1]` intersect)? -/
def entriesOverlap (e f : ScheduleEntry) : Bool :=
  e.course_code == f.course_code && e.group_code == f.group_code &&
  e.day_of_week == f.day_of_week &&
  e.time_slot ≤ f.time_slot + f.span - 1 && f.time_slot ≤ e.time_slot + e.span - 1

/-- Does the entry list contain two (positionally distinct) entries of one
course group that overlap on a day? -/
def hasIntraGroupOverlap : List ScheduleEntry → Bool
  | [] => false
  | e :: rest => rest.any (entriesOverlap e) || hasIntraGroupOverlap rest

/-! ### Claim theorems -/

/-- C1 (code_bug): on a catalog where `EEC 101` groups `05` and `06` share an
identical (day, start, end, session_type) session, assembling the selection
`"EEC 10105"` succeeds but renders row 1 of the placed block as
`"EEC 101 05"` with `group_numbers = ["05"]` — not `"EEC 101 05,06"` as the
claim states — because `findSharedGroups` compares each group's
`course_code` against the catalog session's absent `course_code` field, so
it never finds a match. -/
theorem c1_shared_groups_never_rendered :
    (catalogC1.any fun g =>
      g.course_code == "EEC 101" && g.group_code == "06" &&
      g.sessions.any fun s =>
        s.day_of_week == "Saturday" && s.start_time == "9.00" &&
        s.end_time == "9.45" && s.session_type == "lecture") = true ∧
    (generatePersonalizedSchedule catalogC1 [.str "EEC 10105"]).success = true ∧
    ((generatePersonalizedSchedule catalogC1 [.str "EEC 10105"]).schedule.map
      fun p => ((p.weekly_table.schedule "Saturday").getD 0 none).map
        fun cell => (cell.row1_course_info.display_text,
                     cell.row1_course_info.group_numbers)) =
      some (some ("EEC 101 05", ["05"])) ∧
    "EEC 101 05" ≠ "EEC 101 05,06" := by
  refine ⟨by decide, by decide, by decide, by decide⟩

/-- C2 counterexample: both selections resolve, both sessions start at
Saturday slot 0, yet the result reports `has_conflicts = false` and
`total_conflicts = 0` (not `true`/`1` as claimed) — the second placement
overwrites the first at the same cell. -/
theorem c2_counterexample :
    (generatePersonalizedSchedule catalogC2 [.str "EEC 10101", .str "EEC 11301"]).success
      = true ∧
    ((generatePersonalizedSchedule catalogC2
        [.str "EEC 10101", .str "EEC 11301"]).schedule.map
      fun p => (p.conflict_validation.has_conflicts,
                p.conflict_validation.total_conflicts)) = some (false, 0) ∧
    some ((false : Bool), (0 : Nat)) ≠ some (true, 1) := by
  refine ⟨by decide, by decide, by decide⟩

/-- C3 counterexample: the extractor output for `gridC3` contains two
sessions of the one course group `(EEC 113, 13)` on the same day with
overlapping slot ranges, so the claimed invariant fails. -/
theorem c3_counterexample :
    hasIntraGroupOverlap (detectAllCourseBlocks gridC3) = true := by
  decide

/-- C5 counterexample: in `gridC5` the horizontal span of the block starting
at row 1, column 2 is `2`, i.e. it extends over column 3 even though that
column's content `"EEC 11302 C401"` itself starts a new course block under
the single-group-with-room pattern (the claim says the span must stop
before such a column, which would give span `1`). -/
theorem c5_counterexample :
    calculateHorizontalSpan gridC5 1 2 = 2 ∧
    (singleRoomMatch "EEC 11302 C401").isSome = true ∧
    (parseCourseCell "EEC 11302 C401").isSome = true := by
  refine ⟨by decide, by decide, by decide⟩

/-- C4: a cell matching the shared-group form yields exactly two schedule
entries, one per group code, agreeing on day, start, end and session type,
with `shared_groups` listing both codes in the same order on each; and on
the Scenario A grid (`EEC 10105,06` on columns C–E under `السبت`) the
extractor emits exactly the two Saturday entries with span 3. -/
theorem c4_shared_cell_two_entries
    (v dept courseNum group1 group2 day : String)
    (courseBlock : DetectedBlock) (ts : Nat × String)
    (hv : sharedMatch v = some (dept, courseNum, group1, group2))
    (hg : courseBlock.groups = [group1, group2]) :
    parseCourseCell v = some ⟨dept ++ " " ++ courseNum, [group1, group2]⟩ ∧
    (∃ a b, createScheduleEntries courseBlock day ts = [a, b] ∧
      a.group_code = jsPadStart group1 2 '0' ∧
      b.group_code = jsPadStart group2 2 '0' ∧
      a.day_of_week = day ∧ b.day_of_week = day ∧
      a.start_time = b.start_time ∧ a.end_time = b.end_time ∧
      a.session_type = b.session_type ∧
      a.shared_groups = [group1, group2] ∧ b.shared_groups = [group1, group2]) ∧
    detectAllCourseBlocks gridC4 =
      [{ course_code := "EEC 101", group_code := "05", course_name := "",
         instructor := "", location := "", day_of_week := "Saturday",
         start_time := "9.00", end_time := "9.45", session_type := "lecture",
         time_slot := 1, span := 3, shared_groups := ["05", "06"] },
       { course_code := "EEC 101", group_code := "06", course_name := "",
         instructor := "", location := "", day_of_week := "Saturday",
         start_time := "9.00", end_time := "9.45", session_type := "lecture",
         time_slot := 1, span := 3, shared_groups := ["05", "06"] }] := by
  refine ⟨?_, ?_, by decide⟩
  · unfold parseCourseCell
    rw [hv]
  · unfold createScheduleEntries
    rw [hg]
    exact ⟨_, _, rfl, rfl, rfl, rfl, rfl, rfl, rfl, rfl, by simp, by simp⟩

/-- Witness for C4 at the Scenario A cell and block. -/
theorem c4_shared_cell_two_entries_witness :
    sharedMatch "EEC 10105,06" = some ("EEC", "101", "05", "06") ∧
    (parseCourseCell "EEC 10105,06" = some ⟨"EEC" ++ " " ++ "101", ["05", "06"]⟩ ∧
      (∃ a b, createScheduleEntries
          { courseCode := "EEC 101", groups := ["05", "06"], courseName := "",
            room := "", instructor := "", span := 3, startRow := 1, startCol := 2 }
          "Saturday" (1, "9.00 - 9.45") = [a, b] ∧
        a.group_code = jsPadStart "05" 2 '0' ∧
        b.group_code = jsPadStart "06" 2 '0' ∧
        a.day_of_week = "Saturday" ∧ b.day_of_week = "Saturday" ∧
        a.start_time = b.start_time ∧ a.end_time = b.end_time ∧
        a.session_type = b.session_type ∧
        a.shared_groups = ["05", "06"] ∧ b.shared_groups = ["05", "06"]) ∧
      detectAllCourseBlocks gridC4 =
        [{ course_code := "EEC 101", group_code := "05", course_name := "",
           instructor := "", location := "", day_of_week := "Saturday",
           start_time := "9.00", end_time := "9.45", session_type := "lecture",
           time_slot := 1, span := 3, shared_groups := ["05", "06"] },
         { course_code := "EEC 101", group_code := "06", course_name := "",
           instructor := "", location := "", day_of_week := "Saturday",
           start_time := "9.00", end_time := "9.45", session_type := "lecture",
           time_slot := 1, span := 3, shared_groups := ["05", "06"] }]) :=
  ⟨by decide,
   c4_shared_cell_two_entries "EEC 10105,06" "EEC" "101" "05" "06" "Saturday"
     { courseCode := "EEC 101", groups := ["05", "06"], courseName := "",
       room := "", instructor := "", span := 3, startRow := 1, startCol := 2 }
     (1, "9.00 - 9.45") (by decide) rfl⟩

/-- C9: the assembler never lets an exception escape — every request value,
including `null`, numbers, booleans and non-matching strings among
`desired_courses`, produces a returned result object (the `catch` turns the
only throwing path, reading `.code` of `null`, into a `success:false`
result), and every returned failure carries an error message. -/
theorem c9_never_throws (courseGroups : List CourseGroup)
    (desired : List DesiredCourse) :
    (generatePersonalizedSchedule courseGroups desired).success = true ∨
    ((generatePersonalizedSchedule courseGroups desired).success = false ∧
     (generatePersonalizedSchedule courseGroups desired).error.isSome = true) := by
  unfold generatePersonalizedSchedule generateRaw
  cases hp : parseUserCourseSelection desired courseGroups with
  | error e => right; exact ⟨rfl, rfl⟩
  | ok sels =>
    by_cases hv : (validateCourseSpans sels courseGroups).isValid
    · left; simp [hv]
    · right
      constructor
      · simp [Bool.not_eq_true] at hv
        simp [hv]
      · simp [Bool.not_eq_true] at hv
        simp [hv]

/-- Scenario B catalog: `EEC 101` exists only with groups `02` and `05`. -/
def catalogB : List CourseGroup :=
  [{ course_code := "EEC 101", group_code := "02", course_name := "Circuits",
     sessions := [] },
   { course_code := "EEC 101", group_code := "05", course_name := "Circuits",
     sessions := [] }]

/-- The lexicographic comparison is reflexive. -/
theorem listLeB_refl (as : List Char) : listLeB as as = true := by
  induction as with
  | nil => rfl
  | cons a as ih => simp [listLeB, lt_irrefl, ih]

/-- The JS default sort yields a lexicographically sorted list. -/
theorem jsSortStr_sorted (l : List String) : (jsSortStr l).Sorted strLeProp :=
  List.sorted_insertionSort _ l

/-- C6: smart group selection — prefer `"01"` when available, otherwise the
lexicographically least available group, otherwise fall back to `"01"`; a
bare course string whose course has no catalog groups still resolves (to
group `"01"`) instead of being dropped; and Scenario B resolves
`"EEC 101"` against `catalogB` to group `"02"`. -/
theorem c6_smart_group_selection :
    (∀ (catalog : List CourseGroup) (c : String),
      "01" ∈ availableGroups (some c) catalog →
      selectSmartGroup (some c) catalog = "01") ∧
    (∀ (catalog : List CourseGroup) (c : String),
      availableGroups (some c) catalog ≠ [] →
      "01" ∉ availableGroups (some c) catalog →
      selectSmartGroup (some c) catalog ∈ availableGroups (some c) catalog ∧
        ∀ g ∈ availableGroups (some c) catalog,
          strLeProp (selectSmartGroup (some c) catalog) g) ∧
    (∀ (catalog : List CourseGroup) (c : String),
      availableGroups (some c) catalog = [] →
      selectSmartGroup (some c) catalog = "01") ∧
    (∀ (catalog : List CourseGroup) (s dept courseNum : String),
      userSelMatch s = some (dept, courseNum, none) →
      catalog.filter (fun g => g.course_code == dept ++ " " ++ courseNum) = [] →
      parseUserCourseSelection [.str s] catalog =
        .ok [{ course_code := dept ++ " " ++ courseNum, group_number := "01",
               original_input := .str s }]) ∧
    parseUserCourseSelection [.str "EEC 101"] catalogB =
      .ok [{ course_code := "EEC 101", group_number := "02",
             original_input := .str "EEC 101" }] := by
  refine ⟨?_, ?_, ?_, ?_, by decide⟩
  · intro catalog c h
    have h1 : (availableGroups (some c) catalog).isEmpty = false := by
      cases hA : availableGroups (some c) catalog with
      | nil => rw [hA] at h; cases h
      | cons a as => rfl
    have h2 : (availableGroups (some c) catalog).contains "01" = true :=
      List.elem_eq_true_of_mem h
    simp [selectSmartGroup, h1, h2, h]
  · intro catalog c hne h01
    have hs : (availableGroups (some c) catalog).Sorted strLeProp :=
      jsSortStr_sorted (availableGroupsRaw (some c) catalog)
    cases hA : availableGroups (some c) catalog with
    | nil => exact absurd hA hne
    | cons a as =>
      rw [hA] at hs
      have hnotmem : "01" ∉ (a :: as) := by
        rw [← hA]; exact h01
      have h1 : (availableGroups (some c) catalog).isEmpty = false := by
        rw [hA]; rfl
      have hres : selectSmartGroup (some c) catalog = a := by
        simp [selectSmartGroup, h1, hA, hnotmem]
      rw [hres]
      have hmin := (List.sorted_cons.mp hs).1
      refine ⟨List.mem_cons_self a as, fun g hg => ?_⟩
      rcases List.mem_cons.mp hg with rfl | hg'
      · exact listLeB_refl g.toList
      · exact hmin g hg'
  · intro catalog c hA
    have h1 : (availableGroups (some c) catalog).isEmpty = true := by
      rw [hA]; rfl
    simp [selectSmartGroup, h1]
  · intro catalog s dept courseNum hmatch hfilter
    have hcode : dept ++ " " ++ courseNum ≠ "" := by
      intro h
      have hlen := congrArg String.length h
      rw [String.length_append, String.length_append] at hlen
      have h1 : (" " : String).length = 1 := rfl
      have h0 : ("" : String).length = 0 := rfl
      rw [h1, h0] at hlen
      omega
    have hraw : availableGroupsRaw (some (dept ++ " " ++ courseNum)) catalog = [] := by
      unfold availableGroupsRaw
      rw [show (fun (g : CourseGroup) =>
            match some (dept ++ " " ++ courseNum) with
            | some c => g.course_code == c
            | none => false) =
          (fun g => g.course_code == dept ++ " " ++ courseNum) from rfl]
      rw [hfilter]
      rfl
    have havail : availableGroups (some (dept ++ " " ++ courseNum)) catalog = [] := by
      unfold availableGroups
      rw [hraw]
      rfl
    have hsmart : selectSmartGroup (some (dept ++ " " ++ courseNum)) catalog = "01" := by
      have h1 : (availableGroups (some (dept ++ " " ++ courseNum)) catalog).isEmpty
          = true := by rw [havail]; rfl
      simp [selectSmartGroup, h1]
    have hres2 : resolveStrInput catalog s = (dept ++ " " ++ courseNum, "01") := by
      unfold resolveStrInput
      rw [hmatch]
      simp [hsmart]
    have hb : ((dept ++ " " ++ courseNum) != "") = true := by
      simp [bne_iff_ne, hcode]
    have hpad : jsPadStart "01" 2 '0' = "01" := rfl
    show parseGo catalog [.str s] [] = _
    simp [parseGo, hres2, hpad, hb]

/-- Witness for C6 on `catalogB`: `"01"` is unavailable, so the selection
resolves to the least available group. -/
theorem c6_smart_group_selection_witness :
    availableGroups (some "EEC 101") catalogB ≠ [] ∧
    "01" ∉ availableGroups (some "EEC 101") catalogB ∧
    (selectSmartGroup (some "EEC 101") catalogB ∈
        availableGroups (some "EEC 101") catalogB ∧
      ∀ g ∈ availableGroups (some "EEC 101") catalogB,
        strLeProp (selectSmartGroup (some "EEC 101") catalogB) g) :=
  ⟨by decide, by decide,
   c6_smart_group_selection.2.1 catalogB "EEC 101" (by decide) (by decide)⟩

/-! ### Lemmas about `validateCourseSpans` -/

/-- Every step of the validation fold only appends to `errors`. -/
theorem validateSpanStep_errors (cg : List CourseGroup) (v : SpanValidation)
    (sel : UserSelection) :
    ∃ extra, (validateSpanStep cg v sel).errors = v.errors ++ extra := by
  simp only [validateSpanStep]
  split
  · exact ⟨_, rfl⟩
  · split
    · exact ⟨_, rfl⟩
    · exact ⟨[], (List.append_nil _).symm⟩

/-- Every step of the validation fold only appends to `warnings`. -/
theorem validateSpanStep_warnings (cg : List CourseGroup) (v : SpanValidation)
    (sel : UserSelection) :
    ∃ extra, (validateSpanStep cg v sel).warnings = v.warnings ++ extra := by
  simp only [validateSpanStep]
  split
  · exact ⟨[], (List.append_nil _).symm⟩
  · split
    · exact ⟨[], (List.append_nil _).symm⟩
    · split
      · split
        · exact ⟨_, rfl⟩
        · exact ⟨[], (List.append_nil _).symm⟩
      · exact ⟨[], (List.append_nil _).symm⟩

/-- A step never resets `isValid` back to `true`. -/
theorem validateSpanStep_isValid_false (cg : List CourseGroup) (v : SpanValidation)
    (sel : UserSelection) (h : v.isValid = false) :
    (validateSpanStep cg v sel).isValid = false := by
  simp only [validateSpanStep]
  split
  · rfl
  · split
    · rfl
    · exact h

/-- A selection whose course has no catalog group records the hard error. -/
theorem validateSpanStep_missing (cg : List CourseGroup) (v : SpanValidation)
    (sel : UserSelection)
    (hmiss : cg.filter (fun g => g.course_code == sel.course_code) = []) :
    (validateSpanStep cg v sel).isValid = false ∧
    (validateSpanStep cg v sel).errors = v.errors ++
      ["Course " ++ sel.course_code ++ " not found in Excel data"] := by
  have hempty : (cg.filter fun g => g.course_code == sel.course_code).isEmpty = true := by
    rw [hmiss]; rfl
  simp only [validateSpanStep]
  rw [if_pos hempty]
  exact ⟨rfl, rfl⟩

/-- A selection whose course group is found keeps `isValid` and `errors`
unchanged and appends the span-mismatch warning exactly when the actual
total differs from a nonzero canonical expectation. -/
theorem validateSpanStep_found (cg : List CourseGroup) (v : SpanValidation)
    (sel : UserSelection) (g : CourseGroup)
    (hfind : (cg.filter fun x => x.course_code == sel.course_code).find?
      (fun x => x.group_code == sel.group_number) = some g) :
    (validateSpanStep cg v sel).isValid = v.isValid ∧
    (validateSpanStep cg v sel).errors = v.errors ∧
    ∀ exp, lookupTrueSpan sel.course_code = some exp → exp ≠ 0 →
      calculateGroupSpans g cg ≠ exp →
      (validateSpanStep cg v sel).warnings = v.warnings ++
        ["Course " ++ sel.course_code ++ " group " ++ sel.group_number ++
         ": expected " ++ toString exp ++ " spans, found " ++
         toString (calculateGroupSpans g cg) ++ " spans"] := by
  have hne : (cg.filter fun x => x.course_code == sel.course_code) ≠ [] := by
    intro h
    rw [h] at hfind
    cases hfind
  have hempty : (cg.filter fun x => x.course_code == sel.course_code).isEmpty = false := by
    cases h : (cg.filter fun x => x.course_code == sel.course_code) with
    | nil => exact absurd h hne
    | cons a as => rfl
  simp only [validateSpanStep]
  rw [if_neg (by simp [hempty]), hfind]
  refine ⟨rfl, rfl, fun exp hexp h0 hne2 => ?_⟩
  simp only [hexp]
  rw [if_pos]
  simp [h0, hne2]

/-- `isValid = false` is absorbing through the fold. -/
theorem validateFold_isValid_false (cg : List CourseGroup)
    (sels : List UserSelection) (v : SpanValidation) (h : v.isValid = false) :
    (sels.foldl (validateSpanStep cg) v).isValid = false := by
  induction sels generalizing v with
  | nil => exact h
  | cons x xs ih =>
    rw [List.foldl_cons]
    exact ih _ (validateSpanStep_isValid_false cg v x h)

/-- The fold only appends to `errors`. -/
theorem validateFold_errors (cg : List CourseGroup) (sels : List UserSelection)
    (v : SpanValidation) :
    ∃ extra, (sels.foldl (validateSpanStep cg) v).errors = v.errors ++ extra := by
  induction sels generalizing v with
  | nil => exact ⟨[], (List.append_nil _).symm⟩
  | cons x xs ih =>
    obtain ⟨e1, h1⟩ := validateSpanStep_errors cg v x
    obtain ⟨e2, h2⟩ := ih (validateSpanStep cg v x)
    rw [List.foldl_cons]
    exact ⟨e1 ++ e2, by rw [h2, h1, List.append_assoc]⟩

/-- The fold only appends to `warnings`. -/
theorem validateFold_warnings (cg : List CourseGroup) (sels : List UserSelection)
    (v : SpanValidation) :
    ∃ extra, (sels.foldl (validateSpanStep cg) v).warnings = v.warnings ++ extra := by
  induction sels generalizing v with
  | nil => exact ⟨[], (List.append_nil _).symm⟩
  | cons x xs ih =>
    obtain ⟨e1, h1⟩ := validateSpanStep_warnings cg v x
    obtain ⟨e2, h2⟩ := ih (validateSpanStep cg v x)
    rw [List.foldl_cons]
    exact ⟨e1 ++ e2, by rw [h2, h1, List.append_assoc]⟩

/-- A missing course among the selections makes the fold invalid and puts
its message into the accumulated errors. -/
theorem validateFold_missing (cg : List CourseGroup) (sels : List UserSelection)
    (sel : UserSelection) (v : SpanValidation) (hmem : sel ∈ sels)
    (hmiss : cg.filter (fun g => g.course_code == sel.course_code) = []) :
    (sels.foldl (validateSpanStep cg) v).isValid = false ∧
    ("Course " ++ sel.course_code ++ " not found in Excel data") ∈
      (sels.foldl (validateSpanStep cg) v).errors := by
  induction sels generalizing v with
  | nil => cases hmem
  | cons x xs ih =>
    rw [List.foldl_cons]
    rcases List.mem_cons.mp hmem with rfl | hmem'
    · obtain ⟨hval, herr⟩ := validateSpanStep_missing cg v sel hmiss
      refine ⟨validateFold_isValid_false cg xs _ hval, ?_⟩
      obtain ⟨extra, hex⟩ := validateFold_errors cg xs (validateSpanStep cg v sel)
      rw [hex, herr]
      exact List.mem_append.mpr (Or.inl (List.mem_append.mpr (Or.inr (by simp))))
    · exact ih _ hmem'

/-- When every selection's course group is found, the fold keeps `isValid`
and `errors` unchanged. -/
theorem validateFold_all_found (cg : List CourseGroup) (sels : List UserSelection)
    (v : SpanValidation)
    (hfound : ∀ sel ∈ sels, ∃ g,
      (cg.filter fun x => x.course_code == sel.course_code).find?
        (fun x => x.group_code == sel.group_number) = some g) :
    (sels.foldl (validateSpanStep cg) v).isValid = v.isValid ∧
    (sels.foldl (validateSpanStep cg) v).errors = v.errors := by
  induction sels generalizing v with
  | nil => exact ⟨rfl, rfl⟩
  | cons x xs ih =>
    obtain ⟨g, hg⟩ := hfound x (List.mem_cons_self x xs)
    obtain ⟨hval, herr, _⟩ := validateSpanStep_found cg v x g hg
    rw [List.foldl_cons]
    obtain ⟨h1, h2⟩ := ih (validateSpanStep cg v x)
      (fun sel hs => hfound sel (List.mem_cons_of_mem x hs))
    exact ⟨h1.trans hval, h2.trans herr⟩

/-- A found selection with a nonzero canonical expectation differing from
its actual total leaves its warning in the folded warnings. -/
theorem validateFold_warning_mem (cg : List CourseGroup) (sels : List UserSelection)
    (sel : UserSelection) (g : CourseGroup) (exp : Nat) (v : SpanValidation)
    (hmem : sel ∈ sels)
    (hfind : (cg.filter fun x => x.course_code == sel.course_code).find?
      (fun x => x.group_code == sel.group_number) = some g)
    (hexp : lookupTrueSpan sel.course_code = some exp) (h0 : exp ≠ 0)
    (hne : calculateGroupSpans g cg ≠ exp) :
    ("Course " ++ sel.course_code ++ " group " ++ sel.group_number ++
     ": expected " ++ toString exp ++ " spans, found " ++
     toString (calculateGroupSpans g cg) ++ " spans") ∈
      (sels.foldl (validateSpanStep cg) v).warnings := by
  induction sels generalizing v with
  | nil => cases hmem
  | cons x xs ih =>
    rw [List.foldl_cons]
    rcases List.mem_cons.mp hmem with rfl | hmem'
    · obtain ⟨_, _, hwarn⟩ := validateSpanStep_found cg v sel g hfind
      obtain ⟨extra, hex⟩ := validateFold_warnings cg xs (validateSpanStep cg v sel)
      rw [hex, hwarn exp hexp h0 hne]
      exact List.mem_append.mpr (Or.inl (List.mem_append.mpr (Or.inr (by simp))))
    · exact ih _ hmem'

/-- C7: any selection whose course is absent from the catalog forces
`success = false` with the error `Course <code> not found in Excel data` in
`validation_errors`; the quantification over every such selection in one
request captures that validation continues and accumulates all failures. -/
theorem c7_missing_course_error (catalog : List CourseGroup)
    (desired : List DesiredCourse) (sels : List UserSelection) (sel : UserSelection)
    (hparse : parseUserCourseSelection desired catalog = .ok sels)
    (hmem : sel ∈ sels)
    (hmiss : catalog.filter (fun g => g.course_code == sel.course_code) = []) :
    (generatePersonalizedSchedule catalog desired).success = false ∧
    (generatePersonalizedSchedule catalog desired).error =
      some "Course span validation failed" ∧
    ∃ errs, (generatePersonalizedSchedule catalog desired).validation_errors
        = some errs ∧
      ("Course " ++ sel.course_code ++ " not found in Excel data") ∈ errs := by
  have h := validateFold_missing catalog sels sel
    { isValid := true, errors := [], warnings := [], course_span_summary := [] }
    hmem hmiss
  have hv : (validateCourseSpans sels catalog).isValid = false := h.1
  unfold generatePersonalizedSchedule generateRaw
  rw [hparse]
  simp only [hv]
  exact ⟨rfl, rfl, (validateCourseSpans sels catalog).errors, rfl, h.2⟩

/-- Witness for C7 at Scenario C: selection `"EEC 999"` against `catalogB`. -/
theorem c7_missing_course_error_witness :
    parseUserCourseSelection [.str "EEC 999"] catalogB =
      .ok [{ course_code := "EEC 999", group_number := "01",
             original_input := .str "EEC 999" }] ∧
    ({ course_code := "EEC 999", group_number := "01",
       original_input := .str "EEC 999" } : UserSelection) ∈
      [({ course_code := "EEC 999", group_number := "01",
          original_input := .str "EEC 999" } : UserSelection)] ∧
    catalogB.filter (fun g => g.course_code == "EEC 999") = [] ∧
    ((generatePersonalizedSchedule catalogB [.str "EEC 999"]).success = false ∧
     (generatePersonalizedSchedule catalogB [.str "EEC 999"]).error =
       some "Course span validation failed" ∧
     ∃ errs, (generatePersonalizedSchedule catalogB
         [.str "EEC 999"]).validation_errors = some errs ∧
       ("Course " ++ "EEC 999" ++ " not found in Excel data") ∈ errs) :=
  ⟨by decide, by decide, by decide,
   c7_missing_course_error catalogB [.str "EEC 999"]
     [{ course_code := "EEC 999", group_number := "01",
        original_input := .str "EEC 999" }]
     { course_code := "EEC 999", group_number := "01",
       original_input := .str "EEC 999" }
     (by decide) (by decide) (by decide)⟩

/-- C8: when every resolved selection's course and group exist in the
catalog, the result succeeds; span mismatches appear only in
`span_validation.warnings` (with their exact message), never in the errors,
and never flip `success`. -/
theorem c8_success_with_span_warnings (catalog : List CourseGroup)
    (desired : List DesiredCourse) (sels : List UserSelection)
    (hparse : parseUserCourseSelection desired catalog = .ok sels)
    (hfound : ∀ sel ∈ sels, ∃ g,
      (catalog.filter fun x => x.course_code == sel.course_code).find?
        (fun x => x.group_code == sel.group_number) = some g) :
    (generatePersonalizedSchedule catalog desired).success = true ∧
    ∃ p, (generatePersonalizedSchedule catalog desired).schedule = some p ∧
      p.span_validation.errors = [] ∧ p.span_validation.isValid = true ∧
      ∀ sel ∈ sels, ∀ g exp,
        (catalog.filter fun x => x.course_code == sel.course_code).find?
          (fun x => x.group_code == sel.group_number) = some g →
        lookupTrueSpan sel.course_code = some exp → exp ≠ 0 →
        calculateGroupSpans g catalog ≠ exp →
        ("Course " ++ sel.course_code ++ " group " ++ sel.group_number ++
         ": expected " ++ toString exp ++ " spans, found " ++
         toString (calculateGroupSpans g catalog) ++ " spans") ∈
          p.span_validation.warnings := by
  obtain ⟨hval, herr⟩ := validateFold_all_found catalog sels
    { isValid := true, errors := [], warnings := [], course_span_summary := [] }
    hfound
  have hv : (validateCourseSpans sels catalog).isValid = true := hval
  unfold generatePersonalizedSchedule generateRaw
  rw [hparse]
  simp only [hv]
  refine ⟨rfl, _, rfl, herr, hv, ?_⟩
  intro sel hmem g exp hfind hexp h0 hne
  exact validateFold_warning_mem catalog sels sel g exp _ hmem hfind hexp h0 hne

/-- Scenario E catalog: `EEC 101` group `01` with a single 4-span session,
against the canonical expectation of 3. -/
def catalogE : List CourseGroup :=
  [{ course_code := "EEC 101", group_code := "01", course_name := "Circuits",
     sessions := [mkCatSession "Saturday" "9.00" "12.10" "lecture" 4] }]

/-- Witness for C8 at Scenario E: `EEC 101` group `01` with 4 actual spans
against a canonical expectation of 3. -/
theorem c8_success_with_span_warnings_witness :
    parseUserCourseSelection [.str "EEC 101"] catalogE =
      .ok [{ course_code := "EEC 101", group_number := "01",
             original_input := .str "EEC 101" }] ∧
    ((generatePersonalizedSchedule catalogE [.str "EEC 101"]).success = true ∧
     ∃ p, (generatePersonalizedSchedule catalogE [.str "EEC 101"]).schedule
         = some p ∧
       p.span_validation.errors = [] ∧ p.span_validation.isValid = true ∧
       ∀ sel ∈ [({ course_code := "EEC 101", group_number := "01",
                   original_input := .str "EEC 101" } : UserSelection)],
         ∀ g exp,
         (catalogE.filter fun x => x.course_code == sel.course_code).find?
           (fun x => x.group_code == sel.group_number) = some g →
         lookupTrueSpan sel.course_code = some exp → exp ≠ 0 →
         calculateGroupSpans g catalogE ≠ exp →
         ("Course " ++ sel.course_code ++ " group " ++ sel.group_number ++
          ": expected " ++ toString exp ++ " spans, found " ++
          toString (calculateGroupSpans g catalogE) ++ " spans") ∈
           p.span_validation.warnings) :=
  ⟨by decide,
   c8_success_with_span_warnings catalogE [.str "EEC 101"]
     [{ course_code := "EEC 101", group_number := "01",
        original_input := .str "EEC 101" }]
     (by decide)
     (by
       intro sel hs
       fin_cases hs
       exact ⟨{ course_code := "EEC 101", group_code := "01",
                course_name := "Circuits",
                sessions := [mkCatSession "Saturday" "9.00" "12.10" "lecture" 4] },
              by decide⟩)⟩

/-! ### Characterization of the placement loop `writeSpan` -/

/-- The placement loop preserves the slot-array length. -/
theorem writeSpanGo_length (block : CourseBlockCell) (i total : Nat)
    (ks : List Nat) :
    ∀ lst : List (Option PlacedCell),
    (ks.foldl
      (fun acc spanPos =>
        if i + spanPos < 8 then
          acc.set (i + spanPos)
            (some { toCourseBlockCell := block,
                    is_continuation := decide (0 < spanPos),
                    span_position := spanPos + 1,
                    total_span := total })
        else acc) lst).length = lst.length := by
  induction ks with
  | nil => intro lst; rfl
  | cons x xs ih =>
    intro lst
    rw [List.foldl_cons, ih]
    by_cases hx : i + x < 8
    · simp [hx]
    · simp [hx]

/-- The slot-array length is unchanged by `writeSpan`. -/
theorem writeSpan_length (lst : List (Option PlacedCell)) (i n : Nat)
    (block : CourseBlockCell) :
    (writeSpan lst i n block).length = lst.length :=
  writeSpanGo_length block i n (List.range n) lst

/-- Cell-level description of the placement loop over `List.range k`, with
the recorded `total_span` decoupled from the number of iterations. -/
theorem writeSpanGo_getD (block : CourseBlockCell) (i total : Nat) (k : Nat) :
    ∀ (lst : List (Option PlacedCell)), lst.length = 8 → ∀ (j : Nat),
    ((List.range k).foldl
      (fun acc spanPos =>
        if i + spanPos < 8 then
          acc.set (i + spanPos)
            (some { toCourseBlockCell := block,
                    is_continuation := decide (0 < spanPos),
                    span_position := spanPos + 1,
                    total_span := total })
        else acc) lst).getD j none =
      (if i ≤ j ∧ j < i + k ∧ j < 8 then
        some { toCourseBlockCell := block, is_continuation := decide (i < j),
               span_position := j - i + 1, total_span := total }
      else lst.getD j none) := by
  induction k with
  | zero =>
    intro lst hlen j
    simp only [List.range_zero, List.foldl_nil]
    rw [if_neg (by omega)]
  | succ k ih =>
    intro lst hlen j
    rw [List.range_succ, List.foldl_append, List.foldl_cons, List.foldl_nil]
    have hWlen : ((List.range k).foldl
        (fun acc spanPos =>
          if i + spanPos < 8 then
            acc.set (i + spanPos)
              (some { toCourseBlockCell := block,
                      is_continuation := decide (0 < spanPos),
                      span_position := spanPos + 1,
                      total_span := total })
          else acc) lst).length = 8 := by
      rw [writeSpanGo_length]; exact hlen
    by_cases hk : i + k < 8
    · rw [if_pos hk]
      by_cases hj : j = i + k
      · subst hj
        rw [List.getD_eq_getElem?_getD,
            List.getElem?_set_eq_of_lt _ (by rw [hWlen]; exact hk)]
        rw [if_pos (by omega)]
        have e1 : decide (i < i + k) = decide (0 < k) :=
          decide_eq_decide.mpr (by omega)
        have e2 : i + k - i = k := by omega
        rw [e1, e2]
        rfl
      · rw [List.getD_eq_getElem?_getD,
            List.getElem?_set_ne (fun h => hj h.symm),
            ← List.getD_eq_getElem?_getD, ih lst hlen j]
        by_cases hc : i ≤ j ∧ j < i + k ∧ j < 8
        · rw [if_pos hc, if_pos (by omega)]
        · rw [if_neg hc, if_neg (by omega)]
    · rw [if_neg hk, ih lst hlen j]
      by_cases hc : i ≤ j ∧ j < i + k ∧ j < 8
      · rw [if_pos hc, if_pos (by omega)]
      · rw [if_neg hc, if_neg (by omega)]

/-- Cell-level description of `writeSpan`: slots `i … min (i+n) 8 - 1` hold
the block (continuations after the first), everything else is untouched. -/
theorem writeSpan_getD (lst : List (Option PlacedCell)) (i n : Nat)
    (block : CourseBlockCell) (j : Nat) (hlen : lst.length = 8) :
    (writeSpan lst i n block).getD j none =
      (if i ≤ j ∧ j < i + n ∧ j < 8 then
        some { toCourseBlockCell := block, is_continuation := decide (i < j),
               span_position := j - i + 1, total_span := n }
      else lst.getD j none) :=
  writeSpanGo_getD block i n n lst hlen j

/-- Number of non-empty cells of the weekly table (specification-side
counter used to compare against `generation_metadata.total_spans`). -/
def occupiedCellCount (t : WeeklyTable) : Nat :=
  days.foldl (fun acc day => acc + ((t.schedule day).filterMap id).length) 0

/-- Catalog whose single session starts at slot 6 (`2.00`) with span 5, so
that `6 + 5 > 8`. -/
def catalogC10 : List CourseGroup :=
  [{ course_code := "XYZ 900", group_code := "01", course_name := "X",
     sessions := [mkCatSession "Saturday" "2.00" "2.45" "lecture" 5] }]

/-- C10: a session whose resolved slot `i` and span `n` overflow the table
(`i + n > 8`) writes only the cells at slots `i … 7` — cells below `i` and
virtual slots `≥ 8` are untouched, the array stays 8 long, and every
written cell still reports `total_span = n`; consequently, on the concrete
`catalogC10` run the metadata counts 5 spans while only 2 cells are
occupied, with no error or warning recorded. -/
theorem c10_span_clipping :
    (∀ (lst : List (Option PlacedCell)) (i n : Nat) (block : CourseBlockCell),
      lst.length = 8 → 8 < i + n →
      (writeSpan lst i n block).length = 8 ∧
      (∀ j, 8 ≤ j → (writeSpan lst i n block).getD j none = lst.getD j none) ∧
      (∀ j, j < i → (writeSpan lst i n block).getD j none = lst.getD j none) ∧
      (∀ j, i ≤ j → j < 8 → ∃ cell,
        (writeSpan lst i n block).getD j none = some cell ∧
        cell.total_span = n)) ∧
    ((generatePersonalizedSchedule catalogC10 [.str "XYZ 900"]).success = true ∧
     ((generatePersonalizedSchedule catalogC10 [.str "XYZ 900"]).schedule.map
        fun p => (p.generation_metadata.total_spans,
                  occupiedCellCount p.weekly_table,
                  p.span_validation.errors, p.span_validation.warnings)) =
       some (5, 2, [], []) ∧
     2 < 5) := by
  constructor
  · intro lst i n block hlen hover
    refine ⟨(writeSpan_length lst i n block).trans hlen, ?_, ?_, ?_⟩
    · intro j hj
      rw [writeSpan_getD lst i n block j hlen, if_neg (by omega)]
    · intro j hj
      rw [writeSpan_getD lst i n block j hlen, if_neg (by omega)]
    · intro j hij hj8
      rw [writeSpan_getD lst i n block j hlen, if_pos (by omega)]
      exact ⟨_, rfl, rfl⟩
  · exact ⟨by decide, by decide, by decide⟩

/-- Concrete course block used by the C10 witness. -/
def blockC10 : CourseBlockCell :=
  { row1_course_info :=
      { course_code := "XYZ 900", group_numbers := ["01"],
        display_text := "XYZ 900 01" }
    row2_course_name := { arabic_name := "X", display_text := "X" }
    row3_details := { hall_number := "", professor_name := "", display_text := "" }
    session_metadata :=
      { session_type := "lecture", start_time := "2.00", end_time := "2.45",
        day_of_week := "Saturday", original_span := 5 } }

/-- Witness for C10 at slot 6, span 5 on an empty day row. -/
theorem c10_span_clipping_witness :
    (List.replicate 8 (none : Option PlacedCell)).length = 8 ∧ 8 < 6 + 5 ∧
    ((writeSpan (List.replicate 8 none) 6 5 blockC10).length = 8 ∧
     (∀ j, 8 ≤ j →
       (writeSpan (List.replicate 8 none) 6 5 blockC10).getD j none =
         (List.replicate 8 none).getD j none) ∧
     (∀ j, j < 6 →
       (writeSpan (List.replicate 8 none) 6 5 blockC10).getD j none =
         (List.replicate 8 none).getD j none) ∧
     (∀ j, 6 ≤ j → j < 8 → ∃ cell,
       (writeSpan (List.replicate 8 none) 6 5 blockC10).getD j none = some cell ∧
       cell.total_span = 5)) :=
  ⟨by decide, by decide,
   c10_span_clipping.1 (List.replicate 8 none) 6 5 blockC10 (by decide) (by decide)⟩

/-! ### Helper lemmas for the placement/conflict analysis -/

/-- `padStart` is the identity on strings already long enough. -/
theorem jsPadStart_of_le (s : String) (n : Nat) (c : Char) (h : n ≤ s.length) :
    jsPadStart s n c = s := by
  unfold jsPadStart
  rw [if_pos h]

/-- A successful `indexOf` points at the searched element, inside bounds. -/
theorem jsIndexOf_getD : ∀ (l : List String) (s : String) (i : Nat),
    jsIndexOf l s = some i → l.getD i "" = s ∧ i < l.length := by
  intro l
  induction l with
  | nil => intro s i h; cases h
  | cons x xs ih =>
    intro s i h
    unfold jsIndexOf at h
    by_cases hx : (x == s) = true
    · rw [if_pos hx] at h
      cases h
      exact ⟨eq_of_beq hx, Nat.succ_pos _⟩
    · rw [if_neg hx] at h
      cases hrec : jsIndexOf xs s with
      | none => rw [hrec] at h; cases h
      | some i' =>
        rw [hrec] at h
        cases h
        obtain ⟨h1, h2⟩ := ih s i' hrec
        exact ⟨h1, by simpa using Nat.succ_lt_succ h2⟩

/-- `updateDay` reads back the written list at the written day. -/
theorem updateDay_self (sched : String → List (Option PlacedCell)) (day : String)
    (lst : List (Option PlacedCell)) : updateDay sched day lst day = lst := by
  unfold updateDay
  simp

/-- `updateDay` leaves other days untouched. -/
theorem updateDay_ne (sched : String → List (Option PlacedCell)) (day x : String)
    (lst : List (Option PlacedCell)) (h : x ≠ day) :
    updateDay sched day lst x = sched x := by
  unfold updateDay
  simp [h]

/-- Every read of the empty 8-slot day row yields `none`. -/
theorem replicate_getD_none (j : Nat) :
    (List.replicate 8 (none : Option PlacedCell)).getD j none = none := by
  rw [List.getD_eq_getElem?_getD, List.getElem?_replicate]
  by_cases h : j < 8
  · rw [if_pos h]; rfl
  · rw [if_neg h]; rfl

/-- Reading an empty day list yields `none`. -/
theorem nil_getD_none (j : Nat) :
    ([] : List (Option PlacedCell)).getD j none = none := by
  cases j <;> rfl

/-- The forward conflict scan records nothing when every other slot of the
day is empty or a continuation. -/
theorem conflictScanFrom_no_hits (dayList : List (Option PlacedCell)) (day : String)
    (cell : PlacedCell) (slot : Nat) (acc : List Conflict)
    (H : ∀ k, k ≠ slot → dayList.getD k none = none ∨
      ∃ c, dayList.getD k none = some c ∧ c.is_continuation = true) :
    conflictScanFrom dayList day cell slot acc = acc := by
  unfold conflictScanFrom
  generalize List.range' slot cell.total_span = ks
  induction ks generalizing acc with
  | nil => rfl
  | cons k ks ih =>
    rw [List.foldl_cons]
    by_cases hk : k = slot
    · rw [if_neg (by simp [hk])]
      exact ih acc
    · rw [if_pos hk]
      rcases H k hk with hnone | ⟨c, hc, hcont⟩
      · rw [hnone]
        exact ih acc
      · rw [hc]
        simp only [hcont, Bool.not_true]
        rw [if_neg (by simp)]
        exact ih acc

/-- The per-day slot fold of `validateNoConflicts` records nothing when at
most the slot `i0` holds a non-continuation cell. -/
theorem slotFold_no_hits (dayList : List (Option PlacedCell)) (day : String)
    (acc : List Conflict) (i0 : Nat)
    (H : ∀ k, k ≠ i0 → dayList.getD k none = none ∨
      ∃ c, dayList.getD k none = some c ∧ c.is_continuation = true) :
    (List.range 8).foldl
      (fun acc slot =>
        match dayList.getD slot none with
        | some cell =>
          if !cell.is_continuation then
            conflictScanFrom dayList day cell slot acc
          else acc
        | none => acc)
      acc = acc := by
  generalize List.range 8 = ks
  induction ks generalizing acc with
  | nil => rfl
  | cons j ks ih =>
    rw [List.foldl_cons]
    cases hcell : dayList.getD j none with
    | none => exact ih acc
    | some cell =>
      by_cases hcont : cell.is_continuation = true
      · simp only [hcont, Bool.not_true]
        rw [if_neg (by simp)]
        exact ih acc
      · have hj : j = i0 := by
          by_contra hj
          rcases H j hj with hnone | ⟨c, hc, hcont'⟩
          · rw [hnone] at hcell; cases hcell
          · rw [hc] at hcell
            cases hcell
            exact hcont hcont'
        simp only [Bool.not_eq_true] at hcont
        simp only [hcont, Bool.not_false]
        rw [if_pos trivial, conflictScanFrom_no_hits dayList day cell j acc
          (by rw [hj]; exact H)]
        exact ih acc

/-- `validateNoConflicts` reports no conflicts when every day of the table
has at most one non-continuation cell. -/
theorem validateNoConflicts_empty (table : WeeklyTable)
    (H : ∀ day ∈ days, ∃ i0, ∀ k, k ≠ i0 →
      (table.schedule day).getD k none = none ∨
      ∃ c, (table.schedule day).getD k none = some c ∧ c.is_continuation = true) :
    validateNoConflicts table =
      { has_conflicts := false, conflicts := [], total_conflicts := 0 } := by
  unfold validateNoConflicts
  have main : ∀ (ds : List String), (∀ day ∈ ds, day ∈ days) →
      ds.foldl
        (fun acc day =>
          (List.range 8).foldl
            (fun acc slot =>
              match (table.schedule day).getD slot none with
              | some cell =>
                if !cell.is_continuation then
                  conflictScanFrom (table.schedule day) day cell slot acc
                else acc
              | none => acc)
            acc)
        ([] : List Conflict) = [] := by
    intro ds
    induction ds with
    | nil => intro _; rfl
    | cons d ds ih =>
      intro hsub
      rw [List.foldl_cons]
      obtain ⟨i0, hi0⟩ := H d (hsub d (List.mem_cons_self d ds))
      rw [slotFold_no_hits (table.schedule d) d [] i0 hi0]
      exact ih fun day hd => hsub day (List.mem_cons_of_mem d hd)
  rw [main days (fun day hd => hd)]
  rfl

/-- C2 (amended): when two resolved selections are distinct courses whose
single sessions start at the same (day, slot), the later placement
overwrites the earlier one at that cell, so the containment-based validator
finds nothing: the result succeeds with `has_conflicts = false` and
`total_conflicts = 0` (not `true`/`1`). -/
theorem c2_amended_same_start_overwrite
    (G1 G2 : CourseGroup) (s1 s2 : Session) (c1 c2 g1 g2 d t : String)
    (di ti : Nat)
    (hG1c : G1.course_code = c1) (hG1g : G1.group_code = g1)
    (hG2c : G2.course_code = c2) (hG2g : G2.group_code = g2)
    (hcc : c1 ≠ c2)
    (hc1 : c1 ≠ "") (hc2 : c2 ≠ "") (hg1 : g1 ≠ "") (hg2 : g2 ≠ "")
    (hg1len : 2 ≤ g1.length) (hg2len : 2 ≤ g2.length)
    (hs1 : G1.sessions = [s1]) (hs2 : G2.sessions = [s2])
    (hd1 : s1.day_of_week = d) (hd2 : s2.day_of_week = d)
    (ht1 : s1.start_time = t) (ht2 : s2.start_time = t)
    (hday : jsIndexOf days d = some di)
    (hslot : findTimeSlotIndex t = some ti) :
    (generatePersonalizedSchedule [G1, G2]
      [.obj (some c1) (some g1), .obj (some c2) (some g2)]).success = true ∧
    ∃ p, (generatePersonalizedSchedule [G1, G2]
        [.obj (some c1) (some g1), .obj (some c2) (some g2)]).schedule = some p ∧
      p.conflict_validation.has_conflicts = false ∧
      p.conflict_validation.conflicts = [] ∧
      p.conflict_validation.total_conflicts = 0 := by
  obtain ⟨hgetd, hdlt⟩ := jsIndexOf_getD days d di hday
  have hdmem : d ∈ days := by
    rw [← hgetd]
    rw [List.getD_eq_getElem?_getD, List.getElem?_eq_getElem hdlt]
    exact List.getElem_mem hdlt
  -- boolean forms of the hypotheses
  have bc1 : (c1 != "") = true := by simp [hc1]
  have bc2 : (c2 != "") = true := by simp [hc2]
  have bg1 : (g1 != "") = true := by simp [hg1]
  have bg2 : (g2 != "") = true := by simp [hg2]
  have bg1e : (g1 == "") = false := by simp [hg1]
  have bg2e : (g2 == "") = false := by simp [hg2]
  have bG1c1 : (G1.course_code == c1) = true := by simp [hG1c]
  have bG2c1 : (G2.course_code == c1) = false := by
    rw [hG2c]; exact beq_eq_false_iff_ne.mpr (Ne.symm hcc)
  have bG1c2 : (G1.course_code == c2) = false := by
    rw [hG1c]; exact beq_eq_false_iff_ne.mpr hcc
  have bG2c2 : (G2.course_code == c2) = true := by simp [hG2c]
  have bG1g1 : (G1.group_code == g1) = true := by simp [hG1g]
  have bG2g2 : (G2.group_code == g2) = true := by simp [hG2g]
  -- Step A: the parsed selection
  have hparse : parseUserCourseSelection
      [.obj (some c1) (some g1), .obj (some c2) (some g2)] [G1, G2] =
      .ok [{ course_code := c1, group_number := g1,
             original_input := .obj (some c1) (some g1) },
           { course_code := c2, group_number := g2,
             original_input := .obj (some c2) (some g2) }] := by
    unfold parseUserCourseSelection
    simp [parseGo, bg1e, bg2e, bc1, bc2, bg1, bg2,
          jsPadStart_of_le g1 2 '0' hg1len, jsPadStart_of_le g2 2 '0' hg2len]
  -- Step B: both groups are found during validation
  have ffilter1 : ([G1, G2].filter fun x => x.course_code == c1) = [G1] := by
    simp [List.filter, bG1c1, bG2c1]
  have ffilter2 : ([G1, G2].filter fun x => x.course_code == c2) = [G2] := by
    simp [List.filter, bG1c2, bG2c2]
  have hfound : ∀ sel ∈
      [({ course_code := c1, group_number := g1,
          original_input := .obj (some c1) (some g1) } : UserSelection),
       { course_code := c2, group_number := g2,
         original_input := .obj (some c2) (some g2) }], ∃ g,
      (([G1, G2].filter fun x => x.course_code == sel.course_code).find?
        (fun x => x.group_code == sel.group_number)) = some g := by
    intro sel hs
    rcases List.mem_cons.mp hs with rfl | hs'
    · exact ⟨G1, by rw [ffilter1]; exact List.find?_cons_of_pos _ bG1g1⟩
    · rcases List.mem_cons.mp hs' with rfl | hs''
      · exact ⟨G2, by rw [ffilter2]; exact List.find?_cons_of_pos _ bG2g2⟩
      · cases hs''
  obtain ⟨hval, _⟩ := validateFold_all_found [G1, G2] _
    { isValid := true, errors := [], warnings := [], course_span_summary := [] }
    hfound
  have hv : (validateCourseSpans
      [({ course_code := c1, group_number := g1,
          original_input := .obj (some c1) (some g1) } : UserSelection),
       { course_code := c2, group_number := g2,
         original_input := .obj (some c2) (some g2) }] [G1, G2]).isValid = true :=
    hval
  -- Step C: the placement — both writes land on day `d` at slot `ti`
  have ffind1 : ([G1, G2].find? fun g =>
      g.course_code == c1 && g.group_code == g1) = some G1 :=
    List.find?_cons_of_pos _ (by rw [bG1c1, bG1g1]; rfl)
  have ffind2 : ([G1, G2].find? fun g =>
      g.course_code == c2 && g.group_code == g2) = some G2 := by
    rw [List.find?_cons_of_neg _ (by simp [bG1c2])]
    exact List.find?_cons_of_pos _ (by rw [bG2c2, bG2g2]; rfl)
  have hsched : ∀ x, (buildWeeklyScheduleTable
      [({ course_code := c1, group_number := g1,
          original_input := .obj (some c1) (some g1) } : UserSelection),
       { course_code := c2, group_number := g2,
         original_input := .obj (some c2) (some g2) }] [G1, G2]).schedule x =
      updateDay
        (updateDay
          (fun dd => if days.contains dd then List.replicate 8 none else []) d
          (writeSpan (if days.contains d then List.replicate 8 none else []) ti
            s1.span (createCourseBlock s1 G1 [G1, G2])))
        d
        (writeSpan
          (updateDay
            (fun dd => if days.contains dd then List.replicate 8 none else []) d
            (writeSpan (if days.contains d then List.replicate 8 none else []) ti
              s1.span (createCourseBlock s1 G1 [G1, G2])) d)
          ti s2.span (createCourseBlock s2 G2 [G1, G2])) x := by
    intro x
    simp only [buildWeeklyScheduleTable, List.foldl_cons, List.foldl_nil,
      ffind1, ffind2, hs1, hs2, hd1, hd2, ht1, ht2, hday, hslot, hgetd]
  have hcont : days.contains d = true := List.elem_eq_true_of_mem hdmem
  have hbase : (if days.contains d then List.replicate 8 none else [])
      = (List.replicate 8 (none : Option PlacedCell)) := by rw [hcont]; rfl
  have hL1len : (writeSpan (if days.contains d then List.replicate 8 none else [])
      ti s1.span (createCourseBlock s1 G1 [G1, G2])).length = 8 := by
    rw [writeSpan_length, hbase, List.length_replicate]
  -- Step D: every day has at most one non-continuation cell
  have Hdays : ∀ day ∈ days, ∃ i0, ∀ k, k ≠ i0 →
      ((buildWeeklyScheduleTable
        [({ course_code := c1, group_number := g1,
            original_input := .obj (some c1) (some g1) } : UserSelection),
         { course_code := c2, group_number := g2,
           original_input := .obj (some c2) (some g2) }] [G1, G2]).schedule
        day).getD k none = none ∨
      ∃ c, ((buildWeeklyScheduleTable
        [({ course_code := c1, group_number := g1,
            original_input := .obj (some c1) (some g1) } : UserSelection),
         { course_code := c2, group_number := g2,
           original_input := .obj (some c2) (some g2) }] [G1, G2]).schedule
        day).getD k none = some c ∧ c.is_continuation = true := by
    intro day hd
    by_cases hdd : day = d
    · subst hdd
      refine ⟨ti, fun k hk => ?_⟩
      rw [hsched day, updateDay_self,
          writeSpan_getD _ ti s2.span _ k (by rw [updateDay_self]; exact hL1len)]
      by_cases h2 : ti ≤ k ∧ k < ti + s2.span ∧ k < 8
      · right
        rw [if_pos h2]
        exact ⟨_, rfl, decide_eq_true (by omega)⟩
      · rw [if_neg h2, updateDay_self,
            writeSpan_getD _ ti s1.span _ k (by rw [hbase]; exact List.length_replicate 8 none)]
        by_cases h1 : ti ≤ k ∧ k < ti + s1.span ∧ k < 8
        · right
          rw [if_pos h1]
          exact ⟨_, rfl, decide_eq_true (by omega)⟩
        · left
          rw [if_neg h1, hbase, replicate_getD_none]
    · refine ⟨0, fun k _ => Or.inl ?_⟩
      rw [hsched day, updateDay_ne _ _ _ _ hdd, updateDay_ne _ _ _ _ hdd]
      cases hc : days.contains day with
      | true => rw [if_pos rfl, replicate_getD_none]
      | false => rw [if_neg Bool.false_ne_true, nil_getD_none]
  have hconf := validateNoConflicts_empty _ Hdays
  -- Step E: assemble the result
  unfold generatePersonalizedSchedule generateRaw
  rw [hparse]
  simp only [hv]
  exact ⟨rfl, _, rfl, by rw [hconf], by rw [hconf], by rw [hconf]⟩

/-- Witness for the amended C2 at a concrete catalog: `EEC 101` group 01
and `EEC 113` group 01, both single sessions on Saturday 9.00. -/
theorem c2_amended_same_start_overwrite_witness :
    (generatePersonalizedSchedule catalogC2
      [.obj (some "EEC 101") (some "01"), .obj (some "EEC 113") (some "01")]).success
      = true ∧
    ∃ p, (generatePersonalizedSchedule catalogC2
        [.obj (some "EEC 101") (some "01"),
         .obj (some "EEC 113") (some "01")]).schedule = some p ∧
      p.conflict_validation.has_conflicts = false ∧
      p.conflict_validation.conflicts = [] ∧
      p.conflict_validation.total_conflicts = 0 :=
  c2_amended_same_start_overwrite
    { course_code := "EEC 101", group_code := "01", course_name := "Circuits",
      sessions := [mkCatSession "Saturday" "9.00" "9.45" "lecture" 1] }
    { course_code := "EEC 113", group_code := "01", course_name := "Computers",
      sessions := [mkCatSession "Saturday" "9.00" "9.45" "lecture" 1] }
    (mkCatSession "Saturday" "9.00" "9.45" "lecture" 1)
    (mkCatSession "Saturday" "9.00" "9.45" "lecture" 1)
    "EEC 101" "EEC 113" "01" "01" "Saturday" "9.00" 6 0
    rfl rfl rfl rfl (by decide) (by decide) (by decide) (by decide) (by decide)
    (by decide) (by decide) rfl rfl rfl rfl rfl rfl (by decide) (by decide)

/-! ### The scan invariant of the processed-cell bookkeeping (C3) -/

/-- No later block start lies inside an earlier block's rectangle. -/
def noRestartIn (b1 b2 : DetectedBlock) : Prop :=
  (b2.startRow, b2.startCol) ∉ blockCells b1.startRow b1.startCol b1.span

/-- Invariant carried through the scan: every detected block's rectangle is
recorded in the processed set, and no block starts inside an earlier
block's rectangle. -/
def scanInv (st : ScanState) : Prop :=
  (∀ b ∈ st.blocks, ∀ cell ∈ blockCells b.startRow b.startCol b.span,
    cell ∈ st.processed) ∧
  List.Pairwise noRestartIn st.blocks

/-- A detected block records its start position. -/
theorem detectCourseBlock_start (rawData : RawGrid) (r c : Nat)
    (b : DetectedBlock) (h : detectCourseBlock rawData r c = some b) :
    b.startRow = r ∧ b.startCol = c := by
  simp only [detectCourseBlock] at h
  split at h
  · cases h
  · split at h
    · cases h
    · cases h
      exact ⟨rfl, rfl⟩

/-- One column step preserves the scan invariant. -/
theorem scanCol_inv (rawData : RawGrid) (rowIndex : Nat) (day : String)
    (st : ScanState) (colIndex : Nat) (h : scanInv st) :
    scanInv (scanCol rawData rowIndex day st colIndex) := by
  unfold scanCol
  split
  · exact h
  · by_cases hmem : (rowIndex, colIndex) ∈ st.processed
    · rw [if_pos hmem]
      exact h
    · rw [if_neg hmem]
      cases hdet : detectCourseBlock rawData rowIndex colIndex with
      | none => exact h
      | some block =>
        obtain ⟨hbr, hbc⟩ := detectCourseBlock_start rawData rowIndex colIndex block hdet
        constructor
        · intro b hb cell hcell
          rcases List.mem_append.mp hb with hb' | hb'
          · exact List.mem_append.mpr (Or.inl (h.1 b hb' cell hcell))
          · have hbeq : b = block := by
              cases hb' with
              | head => rfl
              | tail _ htail => cases htail
            subst hbeq
            rw [hbr, hbc] at hcell
            exact List.mem_append.mpr (Or.inr hcell)
        · rw [List.pairwise_append]
          refine ⟨h.2, List.pairwise_singleton _ _, ?_⟩
          intro a ha b' hb'
          have hbeq : b' = block := by
            cases hb' with
            | head => rfl
            | tail _ htail => cases htail
          subst hbeq
          unfold noRestartIn
          rw [hbr, hbc]
          intro hin
          exact hmem (h.1 a ha (rowIndex, colIndex) hin)

/-- Folding any invariant-preserving step preserves the invariant. -/
theorem foldl_scanInv {α : Type} (f : ScanState → α → ScanState)
    (hf : ∀ st x, scanInv st → scanInv (f st x)) :
    ∀ (l : List α) (st : ScanState), scanInv st → scanInv (l.foldl f st) := by
  intro l
  induction l with
  | nil => intro st h; exact h
  | cons x xs ih => intro st h; exact ih (f st x) (hf st x h)

/-- One row step preserves the scan invariant. -/
theorem scanRow_inv (rawData : RawGrid) (st : ScanState) (rowIndex : Nat)
    (h : scanInv st) : scanInv (scanRow rawData st rowIndex) := by
  show scanInv
    (match findDayName (cellAt rawData rowIndex 0) with
     | some foundDay => { st with currentDay := some foundDay }
     | none =>
       match st.currentDay with
       | none => st
       | some day =>
         ([2, 3, 4, 5, 6, 7, 8, 9] : List Nat).foldl (scanCol rawData rowIndex day) st)
  split
  · exact h
  · split
    · exact h
    · exact foldl_scanInv _ (fun st' c h' => scanCol_inv rawData rowIndex _ st' c h')
        _ st h

/-- C3 (amended): what the processed-cell bookkeeping actually guarantees —
across the whole scan, no detected course block starts inside the
3-row × span-column rectangle of any earlier detected block (so two blocks
of the same grid row never overlap in columns); it does not prevent two
blocks in different row bands of the same day from producing overlapping
sessions of one course group (see the counterexample). -/
theorem c3_amended_no_restart_in_rect (rawData : RawGrid) :
    List.Pairwise noRestartIn (scanGrid rawData).blocks := by
  have h : scanInv (scanGrid rawData) := by
    unfold scanGrid
    refine foldl_scanInv _ (fun st r h => scanRow_inv rawData st r h) _ _ ?_
    exact ⟨fun b hb => absurd hb (List.not_mem_nil b), List.Pairwise.nil⟩
  exact h.2

/-! ### Analysis of the span-stop condition (C5) -/

/-- A matched substring's head character occurs in the searched list. -/
theorem hasSubstr_head_mem (p : Char) (ps : List Char) :
    ∀ cs : List Char, hasSubstr (p :: ps) cs = true → p ∈ cs := by
  intro cs
  induction cs with
  | nil => intro h; simp [hasSubstr, startsWithPat] at h
  | cons c cs ih =>
    intro h
    simp only [hasSubstr, Bool.or_eq_true] at h
    rcases h with h | h
    · simp only [startsWithPat, Bool.and_eq_true] at h
      exact List.mem_cons.mpr (Or.inl (eq_of_beq h.1))
    · exact List.mem_cons.mpr (Or.inr (ih h))

/-- Every character of a cell matching the basic course pattern is an
uppercase letter, a whitespace character, or a digit. -/
theorem ccMatch_chars (v : String) (h : (ccMatch v).isSome = true) :
    ∀ c ∈ v.toList, (isUpperAZ c || isJsSpace c || isDigit09 c) = true := by
  intro c hc
  simp only [ccMatch] at h
  split at h
  · rename_i hcond
    simp only [Bool.and_eq_true] at hcond
    obtain ⟨⟨⟨_, _⟩, _⟩, hall⟩ := hcond
    rw [← List.takeWhile_append_dropWhile isUpperAZ v.toList] at hc
    rcases List.mem_append.mp hc with hc1 | hc2
    · simp [List.mem_takeWhile_imp hc1]
    · rw [← List.takeWhile_append_dropWhile isJsSpace
        (v.toList.dropWhile isUpperAZ)] at hc2
      rcases List.mem_append.mp hc2 with hc3 | hc4
      · simp [List.mem_takeWhile_imp hc3]
      · have := List.all_eq_true.mp (by simpa using hall) c hc4
        simp [this]
  · exact Bool.noConfusion h

/-- A cell matching the basic course pattern is non-empty. -/
theorem ccMatch_ne_empty (v : String) (h : (ccMatch v).isSome = true) : v ≠ "" := by
  intro hv
  subst hv
  exact absurd h (by decide)

/-- A cell matching the shared-group pattern is longer than 5 characters
and never matches the basic pattern. -/
theorem sharedMatch_facts (v : String)
    (h : (sharedMatch v).isSome = true) :
    5 < v.length ∧ ccMatch v = none := by
  simp only [sharedMatch] at h
  split at h
  · rename_i hletters
    split at h
    · rename_i a b c d e f g h8 heq
      have hlenv : v.toList.length = v.length := rfl
      have hsplit1 := List.takeWhile_append_dropWhile isUpperAZ v.toList
      have hsplit2 := List.takeWhile_append_dropWhile isJsSpace
        (v.toList.dropWhile isUpperAZ)
      have hrl : (List.dropWhile isJsSpace
          (v.toList.dropWhile isUpperAZ)).length = 8 := by rw [heq]; rfl
      simp only [Bool.and_eq_true, decide_eq_true_eq] at hletters
      constructor
      · have e1 := congrArg List.length hsplit1
        have e2 := congrArg List.length hsplit2
        rw [List.length_append] at e1 e2
        omega
      · simp only [ccMatch]
        rw [if_neg]
        intro hcond
        simp only [Bool.and_eq_true, beq_iff_eq] at hcond
        rw [hrl] at hcond
        omega
    · cases h
  · cases h

/-- A `'C'`-digit suffix makes the room test succeed on any list. -/
theorem roomTestL_append_suffix (ds : List Char) (h3 : 3 ≤ ds.length)
    (hd : (ds.take 3).all isDigit09 = true) :
    ∀ xs : List Char, roomTestL (xs ++ ('C' :: ds)) = true := by
  intro xs
  induction xs with
  | nil =>
    simp only [List.nil_append, roomTestL, Bool.or_eq_true]
    left
    simp [h3, hd]
  | cons x xs ih =>
    simp only [List.cons_append, roomTestL, Bool.or_eq_true]
    right
    exact ih

/-- A cell matching the single-course-with-room pattern contains a room
substring (so the room test fires on it). -/
theorem singleRoomMatch_roomTest (v : String)
    (h : (singleRoomMatch v).isSome = true) : roomTest v = true := by
  simp only [singleRoomMatch] at h
  split at h
  · rename_i hcond
    split at h
    · rename_i ds heq
      split at h
      · rename_i hds
        simp only [Bool.and_eq_true, Bool.or_eq_true, beq_iff_eq] at hds
        have h3 : 3 ≤ ds.length := by rcases hds.1 with h | h <;> omega
        have htake : (ds.take 3).all isDigit09 = true := by
          rw [List.all_eq_true]
          intro c hc
          exact List.all_eq_true.mp hds.2 c (List.mem_of_mem_take hc)
        unfold roomTest
        have hsplit1 := List.takeWhile_append_dropWhile isUpperAZ v.toList
        have hsplit2 := List.takeWhile_append_dropWhile isJsSpace
          (v.toList.dropWhile isUpperAZ)
        have hsplit3 := List.takeWhile_append_dropWhile isDigit09
          (List.dropWhile isJsSpace (v.toList.dropWhile isUpperAZ))
        have hsplit4 := List.takeWhile_append_dropWhile isJsSpace
          (List.dropWhile isDigit09
            (List.dropWhile isJsSpace (v.toList.dropWhile isUpperAZ)))
        rw [heq] at hsplit4
        rw [← hsplit1, ← hsplit2, ← hsplit3, ← hsplit4]
        rw [show ∀ (l1 l2 l3 l4 : List Char),
            l1 ++ (l2 ++ (l3 ++ (l4 ++ 'C' :: ds))) =
            (l1 ++ l2 ++ l3 ++ l4) ++ ('C' :: ds) from
          fun l1 l2 l3 l4 => by simp [List.append_assoc]]
        exact roomTestL_append_suffix ds h3 htake _
      · cases h
    · cases h
  · cases h

/-- C5 (amended): the lookahead loop of `calculateHorizontalSpan` stops
before a column exactly when that column's trimmed cell matches the basic
`DEPT NNN` pattern and contains no room substring; cells of the
shared-group or single-with-room forms never stop the span (they extend
it), contrary to the original claim. -/
theorem c5_amended_stop_condition (v : String) :
    (stopsSpanCell v = true ↔
      ((ccMatch v).isSome = true ∧ roomTest v = false)) ∧
    ((sharedMatch v).isSome = true → stopsSpanCell v = false) ∧
    ((singleRoomMatch v).isSome = true → stopsSpanCell v = false) := by
  have main : stopsSpanCell v = true ↔
      ((ccMatch v).isSome = true ∧ roomTest v = false) := by
    constructor
    · intro h
      simp only [stopsSpanCell, Bool.and_eq_true, Bool.not_eq_true',
        Bool.or_eq_false_iff] at h
      obtain ⟨⟨⟨hne, hroom⟩, hinstr⟩, hcs⟩ := h
      rcases Bool.or_eq_true _ _ |>.mp hcs with hcc | hshared
      · exact ⟨hcc, hroom⟩
      · exfalso
        obtain ⟨hlen, hccnone⟩ := sharedMatch_facts v hshared
        have : isInstructorInfo v = true := by
          simp only [isInstructorInfo, Bool.or_eq_true]
          right
          simp [hlen, hroom, hccnone]
        simp [this] at hinstr
    · intro ⟨hcc, hroom⟩
      have hne : (v == "") = false :=
        beq_eq_false_iff_ne.mpr (ccMatch_ne_empty v hcc)
      have hinstr : isInstructorInfo v = false := by
        simp only [isInstructorInfo, Bool.or_eq_false_iff]
        have hchars := ccMatch_chars v hcc
        have hm : ∀ (p : Char) (ps : List Char),
            (isUpperAZ p || isJsSpace p || isDigit09 p) = false →
            hasSubstr (p :: ps) v.toList = false := by
          intro p ps hp
          cases hsub : hasSubstr (p :: ps) v.toList with
          | false => rfl
          | true =>
            have := hchars p (hasSubstr_head_mem p ps v.toList hsub)
            rw [this] at hp
            cases hp
        refine ⟨⟨⟨hm 'م' ['.'] (by decide), hm 'د' ['.'] (by decide)⟩,
          hm 'أ' ['.'] (by decide)⟩, ?_⟩
        simp [hcc]
      simp [stopsSpanCell, hne, hroom, hinstr, hcc]
  refine ⟨main, ?_, ?_⟩
  · intro hshared
    obtain ⟨_, hccnone⟩ := sharedMatch_facts v hshared
    cases hstop : stopsSpanCell v with
    | false => rfl
    | true =>
      obtain ⟨hcc, _⟩ := main.mp hstop
      rw [hccnone] at hcc
      cases hcc
  · intro hsingle
    have hroom := singleRoomMatch_roomTest v hsingle
    cases hstop : stopsSpanCell v with
    | false => rfl
    | true =>
      obtain ⟨_, hroomf⟩ := main.mp hstop
      rw [hroom] at hroomf
      cases hroomf

/-- Witness for the amended C5: the shared-group cell of Scenario A never
stops the lookahead span. -/
theorem c5_amended_stop_condition_witness :
    (sharedMatch "EEC 10105,06").isSome = true ∧
    stopsSpanCell "EEC 10105,06" = false :=
  ⟨by decide, (c5_amended_stop_condition "EEC 10105,06").2.1 (by decide)⟩

end HTI
